import Mathlib

/-
Verification of the natural-language specification of `obi_bot.py`
(a multi-exchange low-liquidity arbitrage alert bot) against a shallow
embedding of its code in Lean 4.

Embedding conventions:
* Python floats are modelled as rationals (ℚ); the arithmetic of the
  program is plain +, -, *, / on floats, which the claims treat exactly.
* `round(x, n)` is Python's round-half-to-even on the idealized decimal.
* Fallible operations are `Option`/`Except`; a raised exception that the
  code does not catch locally is an `Except.error`.
* HTTP responses, wall-clock readings and other environment data are
  inputs to the embedded functions; the functions themselves are the
  translation of the source lines cited in the doc comments.
-/

namespace ObiBot

/-- A depth level `(price, qty)` as parsed by the exchange adapters. -/
abbrev Level : Type := ℚ × ℚ

/-- Configuration values read from environment variables at process start
(lines 14-39 of `obi_bot.py`), together with the scanned symbol list that
`run` builds from `WATCHLIST` (lines 297-302). Counts are naturals,
monetary/percent values rationals. -/
structure Config where
  MIN_SPREAD_PCT : ℚ
  MIN_PROFIT_USDT : ℚ
  MIN_NOTIONAL_USDT : ℚ
  MAX_AVG_VOLUME_USDT : ℚ
  DEPTH_LEVELS : ℕ
  REPORT_LIMIT : ℕ
  SCAN_INTERVAL : ℚ
  HEARTBEAT_INTERVAL : ℚ
  EXCHANGES : List String
  TELEGRAM_TOKEN : Option String
  CHAT_ID : Option String
  symbols : List String

/-- The default configuration: every environment variable unset, so each
`os.getenv` default applies, and the default symbol list of `run`. -/
def defaultConfig : Config where
  MIN_SPREAD_PCT := 1
  MIN_PROFIT_USDT := 5
  MIN_NOTIONAL_USDT := 10
  MAX_AVG_VOLUME_USDT := 50000
  DEPTH_LEVELS := 6
  REPORT_LIMIT := 30
  SCAN_INTERVAL := 60
  HEARTBEAT_INTERVAL := 300
  EXCHANGES := ["binance", "kucoin", "mexc", "bitget", "okx"]
  TELEGRAM_TOKEN := none
  CHAT_ID := none
  symbols := ["SOLUSDT", "AVAXUSDT", "FTMUSDT", "MANAUSDT", "SANDUSDT",
              "RUNEUSDT", "XLMUSDT", "TRXUSDT", "MATICUSDT", "LRCUSDT"]

/-- Python's round-half-to-even of a rational to an integer. -/
def roundHalfEven (q : ℚ) : ℤ :=
  let f : ℤ := q.floor
  let r : ℚ := q - (f : ℚ)
  if r < 1 / 2 then f
  else if 1 / 2 < r then f + 1
  else if f % 2 = 0 then f else f + 1

/-- Python `round(x, 2)` on the idealized decimal value. -/
def round2 (x : ℚ) : ℚ := (roundHalfEven (x * 100) : ℚ) / 100

/-- Python `round(x, 4)` on the idealized decimal value. -/
def round4 (x : ℚ) : ℚ := (roundHalfEven (x * 10000) : ℚ) / 10000

/-- Walk of `estimate_buy_from_asks` (lines 226-239): spend `remain` USDT
across the ask levels, returning `(spent, acquired, levels_used)`. The
Python `for` loop with `break` on `remain <= 0` becomes recursion on the
level list. -/
def buyWalk : List Level → ℚ → ℚ × ℚ × List (ℚ × ℚ × ℚ)
  | [], _ => (0, 0, [])
  | (price, qty) :: rest, remain =>
    if remain ≤ 0 then (0, 0, [])
    else
      let level_notional := price * qty
      let use := min level_notional remain
      let qty_used := use / price
      let r := buyWalk rest (remain - use)
      (use + r.1, qty_used + r.2.1, (price, qty_used, use) :: r.2.2)

/-- Result tuple of `estimate_buy_from_asks` (line 240). -/
structure BuyEst where
  spent : ℚ
  acquired : ℚ
  avg : Option ℚ
  levels_used : List (ℚ × ℚ × ℚ)
deriving DecidableEq

/-- Result tuple of `estimate_sell_on_bids` (line 257). -/
structure SellEst where
  received : ℚ
  sold : ℚ
  avg : Option ℚ
  levels_used : List (ℚ × ℚ × ℚ)
deriving DecidableEq

/-- Lines 224-240: spend up to `target_notional` USDT buying base across
the asks. -/
def estimate_buy_from_asks (asks : List Level) (target_notional : ℚ) : BuyEst :=
  let r := buyWalk asks target_notional
  { spent := r.1
    acquired := r.2.1
    avg := if 0 < r.2.1 then some (r.1 / r.2.1) else none
    levels_used := r.2.2 }

/-- Walk of `estimate_sell_on_bids` (lines 244-256): sell `remain` base
units across the bid levels, returning `(received, sold, levels_used)`. -/
def sellWalk : List Level → ℚ → ℚ × ℚ × List (ℚ × ℚ × ℚ)
  | [], _ => (0, 0, [])
  | (price, qty) :: rest, remain =>
    if remain ≤ 0 then (0, 0, [])
    else
      let use_qty := min qty remain
      let notional := use_qty * price
      let r := sellWalk rest (remain - use_qty)
      (notional + r.1, use_qty + r.2.1, (price, use_qty, notional) :: r.2.2)

/-- Lines 242-257: sell up to `target_base_qty` base across the bids. -/
def estimate_sell_on_bids (bids : List Level) (target_base_qty : ℚ) : SellEst :=
  let r := sellWalk bids target_base_qty
  { received := r.1
    sold := r.2.1
    avg := if 0 < r.2.1 then some (r.1 / r.2.1) else none
    levels_used := r.2.2 }

/-- Insertion into an ascending list, implementing Python `sorted` on the
candidate notionals (line 268). -/
def insertAsc (x : ℚ) : List ℚ → List ℚ
  | [] => [x]
  | y :: ys => if x ≤ y then x :: y :: ys else y :: insertAsc x ys

/-- Ascending insertion sort: the order `sorted` produces on a list of
distinct rationals. -/
def sortAsc : List ℚ → List ℚ
  | [] => []
  | x :: xs => insertAsc x (sortAsc xs)

/-- Lines 261-268 of `evaluate_pair`: the candidate notional levels, a set
of rounded per-level notionals of the first `DEPTH_LEVELS` ask and bid
levels plus five fractions of the capital, filtered to `> 1.0` and
sorted ascending. -/
def candidateNotionals (cfg : Config) (buy_asks sell_bids : List Level)
    (capital_limit : ℚ) : List ℚ :=
  sortAsc ((((buy_asks.take cfg.DEPTH_LEVELS).map (fun l => round2 (l.1 * l.2)) ++
             (sell_bids.take cfg.DEPTH_LEVELS).map (fun l => round2 (l.1 * l.2)) ++
             [round2 (capital_limit * (1 / 20)), round2 (capital_limit * (1 / 10)),
              round2 (capital_limit * (1 / 4)), round2 (capital_limit * (1 / 2)),
              round2 (capital_limit * 1)]).dedup).filter (fun c => 1 < c))

/-- The `best` dictionary of `evaluate_pair` (line 269). -/
structure Best where
  notional : ℚ
  profit : ℚ
  profit_pct : ℚ
  buy_exec : Option BuyEst
  sell_exec : Option SellEst
deriving DecidableEq

/-- Initial sentinel value of `best` (line 269). -/
def initBest : Best :=
  { notional := 0, profit := -(10 ^ 9), profit_pct := -999,
    buy_exec := none, sell_exec := none }

/-- Body of the candidate loop of `evaluate_pair` (lines 270-282). -/
def evalStep (buy_asks sell_bids : List Level)
    (fee_buy fee_sell capital_limit : ℚ) (best : Best) (notional : ℚ) : Best :=
  if capital_limit + 1 / 1000000000 < notional then best
  else
    let b := estimate_buy_from_asks buy_asks notional
    if b.acquired ≤ 0 then best
    else
      let s := estimate_sell_on_bids sell_bids b.acquired
      if s.sold ≤ 0 then best
      else
        let cost_with_fee := b.spent * (1 + fee_buy)
        let recv_after_fee := s.received * (1 - fee_sell)
        let profit := recv_after_fee - cost_with_fee
        let profit_pct := if 0 < cost_with_fee then profit / cost_with_fee * 100 else 0
        if best.profit < profit ∧ 0 < profit then
          { notional := b.spent, profit := profit, profit_pct := profit_pct,
            buy_exec := some b, sell_exec := some s }
        else best

/-- Lines 260-283: find the best executable notional and profit for a
buy-on-asks / sell-on-bids pair. The Python defaults are
`fee_buy = fee_sell = 0.001`, `capital_limit = 100.0`; `run` passes
`0.002` fees and its own capital limit. -/
def evaluate_pair (cfg : Config) (buy_asks sell_bids : List Level)
    (fee_buy fee_sell capital_limit : ℚ) : Best :=
  (candidateNotionals cfg buy_asks sell_bids capital_limit).foldl
    (evalStep buy_asks sell_bids fee_buy fee_sell capital_limit) initBest

/-- A cell of a CSV row: the program writes strings, rounded numbers and
python-repr of level lists (line 418). -/
inductive Cell where
  | str (s : String)
  | num (q : ℚ)
  | levels (l : List (ℚ × ℚ × ℚ))
deriving DecidableEq

/-- A CSV row. -/
abbrev Row : Type := List Cell

/-- Header row written by `log_to_csv` (line 287). -/
def csvHeader : Row :=
  [.str "timestamp", .str "symbol", .str "buy_ex", .str "sell_ex", .str "notional",
   .str "profit", .str "profit_pct", .str "buy_levels", .str "sell_levels"]

/-- Lines 286-293: append `row` to the CSV log file, writing the header
first when the file does not yet exist. The argument is the current
on-disk content of `CSV_LOG` (`none` = file absent); the result is its
content after the call. This file lives on disk and survives a process
restart. -/
def log_to_csv (file : Option (List Row)) (row : Row) : List Row :=
  match file with
  | none => [csvHeader, row]
  | some rows => rows ++ [row]

/-- Observable side effects of one pass of the program. `csvAppend` is a
write to the persistent `CSV_LOG` file; `print`, `httpPost` and
`sleepFor` leave no state behind. -/
inductive Effect where
  | print (msg : String)
  | httpPost (url : String)
  | csvAppend (row : Row)
  | sleepFor (secs : ℚ)
deriving DecidableEq

/-- Python truthiness of an optional string (`os.getenv` result): `None`
and the empty string are falsy. -/
def truthyStr : Option String → Bool
  | none => false
  | some s => if s = "" then false else true

/-- The Telegram Bot sendMessage endpoint URL built on line 48. -/
def telegramUrl (cfg : Config) : String :=
  "https://api.telegram.org/bot" ++ cfg.TELEGRAM_TOKEN.getD "" ++ "/sendMessage"

/-- Lines 44-52, `send_telegram`: if either credential is falsy, print and
return without any HTTP request; otherwise POST once to the sendMessage
endpoint, and if that request raises (`postRaises`), swallow the
exception and print. The function is total: it never propagates an
exception to its caller. -/
def send_telegram (cfg : Config) (text : String) (postRaises : Bool) : List Effect :=
  if !truthyStr cfg.TELEGRAM_TOKEN || !truthyStr cfg.CHAT_ID then
    [.print "Missing TELEGRAM_TOKEN or CHAT_ID; cannot send Telegram messages."]
  else
    .httpPost (telegramUrl cfg) ::
      (if postRaises then [.print ("Telegram send error: " ++ text)] else [])

/-- Raw order-book payload of a depth HTTP response, numbers already
parsed from their JSON string form. -/
structure DepthResp where
  bids : List Level
  asks : List Level
deriving DecidableEq

/-- Lines 96-102, `fetch_binance_depth`: `(None, None)` when the request
failed (falsy `data`), otherwise the first `DEPTH_LEVELS` bid and ask
levels. -/
def fetch_binance_depth (cfg : Config) (data : Option DepthResp) :
    Option (List Level) × Option (List Level) :=
  match data with
  | none => (none, none)
  | some d => (some (d.bids.take cfg.DEPTH_LEVELS), some (d.asks.take cfg.DEPTH_LEVELS))

/-- Lines 129-135, `fetch_kucoin_depth`: the argument is the `"data"`
object of the response (`none` when the request failed or the key is
missing). -/
def fetch_kucoin_depth (cfg : Config) (data : Option DepthResp) :
    Option (List Level) × Option (List Level) :=
  match data with
  | none => (none, none)
  | some d => (some (d.bids.take cfg.DEPTH_LEVELS), some (d.asks.take cfg.DEPTH_LEVELS))

/-- Lines 148-155, `fetch_mexc_depth`. -/
def fetch_mexc_depth (cfg : Config) (data : Option DepthResp) :
    Option (List Level) × Option (List Level) :=
  match data with
  | none => (none, none)
  | some d => (some (d.bids.take cfg.DEPTH_LEVELS), some (d.asks.take cfg.DEPTH_LEVELS))

/-- Lines 171-178, `fetch_bitget_depth`. -/
def fetch_bitget_depth (cfg : Config) (data : Option DepthResp) :
    Option (List Level) × Option (List Level) :=
  match data with
  | none => (none, none)
  | some d => (some (d.bids.take cfg.DEPTH_LEVELS), some (d.asks.take cfg.DEPTH_LEVELS))

/-- Lines 194-201, `fetch_okx_depth`: the payload is the `"data"` array of
books; `data["data"][0]` raises IndexError when that array is empty. -/
def fetch_okx_depth (cfg : Config) (data : Option (List DepthResp)) :
    Except String (Option (List Level) × Option (List Level)) :=
  match data with
  | none => .ok (none, none)
  | some [] => .error "list index out of range"
  | some (d :: _) =>
    .ok (some (d.bids.take cfg.DEPTH_LEVELS), some (d.asks.take cfg.DEPTH_LEVELS))

/-- Lines 104-113, `fetch_binance_24h`: `none` when the request failed,
otherwise the parsed `quoteVolume` with missing key defaulting to `0.0`
(a float-parse failure is also reported as `none` by the `except`). -/
def fetch_binance_24h (data : Option (Option ℚ)) : Option ℚ :=
  match data with
  | none => none
  | some v => some (v.getD 0)

/-- Lines 356-365: the per-symbol keep decision of the low-liquidity
filter. `volFetch` is `fetch_binance_24h` applied to that scan's HTTP
responses. -/
def lowliqKeep (cfg : Config) (volFetch : String → Option ℚ) (s : String) : Bool :=
  let avg_vol : Option ℚ :=
    if cfg.EXCHANGES.contains "binance" then
      match volFetch s with
      | some v => if v = 0 then none else some v
      | none => none
    else none
  match avg_vol with
  | none => true
  | some v => decide (v ≤ cfg.MAX_AVG_VOLUME_USDT)

/-- Lines 355-367: `lowliq_symbols`, the symbols kept for further
checking. -/
def lowliqFilter (cfg : Config) (volFetch : String → Option ℚ)
    (symbols : List String) : List String :=
  symbols.filter (lowliqKeep cfg volFetch)

/-- A per-exchange market snapshot: the `topo` dictionary of `run`
(line 308), an insertion-ordered map from exchange name to a map from
symbol to `(bid, ask)`. Both dictionaries are modelled as association
lists in insertion order. -/
abbrev Topo : Type := List (String × List (String × (ℚ × ℚ)))

/-- Python `s in market` / `market[s]` on a symbol map. -/
def lookupSym (s : String) : List (String × (ℚ × ℚ)) → Option (ℚ × ℚ)
  | [] => none
  | kv :: rest => if kv.1 = s then some kv.2 else lookupSym s rest

/-- One entry of the `spreads` list (line 383):
`(s, best_ask, best_ask_ex, best_bid, best_bid_ex, spread_pct)`. -/
structure SpreadCand where
  sym : String
  a_price : ℚ
  a_ex : String
  b_price : ℚ
  b_ex : String
  spc : ℚ
deriving DecidableEq

/-- Loop body of lines 374-380: process one `topo` entry, updating the
`(best_ask, best_ask_ex, best_bid, best_bid_ex)` accumulator. A falsy
(zero) bid or ask is skipped by the Python truthiness tests. -/
def spreadStep (s : String) (acc : ℚ × Option String × ℚ × Option String)
    (exm : String × List (String × (ℚ × ℚ))) : ℚ × Option String × ℚ × Option String :=
  match lookupSym s exm.2 with
  | none => acc
  | some (bid, ask) =>
    let a : ℚ × Option String :=
      if ask ≠ 0 ∧ ask < acc.1 then (ask, some exm.1) else (acc.1, acc.2.1)
    let b : ℚ × Option String :=
      if bid ≠ 0 ∧ acc.2.2.1 < bid then (bid, some exm.1) else (acc.2.2.1, acc.2.2.2)
    (a.1, a.2, b.1, b.2)

/-- Lines 372-380: scan `topo` for the best (lowest) truthy ask and best
(highest) truthy bid of symbol `s`, starting from the sentinels
`(1e18, None)` and `(-1.0, None)`. Result:
`(best_ask, best_ask_ex, best_bid, best_bid_ex)`. -/
def spreadScan (topo : Topo) (s : String) : ℚ × Option String × ℚ × Option String :=
  topo.foldl (spreadStep s) (10 ^ 18, none, -1, none)

/-- Lines 372-383 for one symbol: the spread entry appended for `s`, if
any: both exchanges recorded and distinct, with `spread_pct` as on
line 382. -/
def mkSpreadCand (topo : Topo) (s : String) : Option SpreadCand :=
  let r := spreadScan topo s
  match r.2.1, r.2.2.2 with
  | some axe, some bxe =>
    if axe ≠ bxe then
      some { sym := s, a_price := r.1, a_ex := axe, b_price := r.2.2.1, b_ex := bxe,
             spc := (r.2.2.1 - r.1) / r.1 * 100 }
    else none
  | _, _ => none

/-- Lines 370-383: the `spreads` list, one entry per checked symbol whose
scan recorded two distinct exchanges. -/
def computeSpreads (topo : Topo) (check_symbols : List String) : List SpreadCand :=
  check_symbols.filterMap (mkSpreadCand topo)

/-- Stable descending insertion (by `spread_pct`) implementing Python
`sorted(spreads, key=lambda x: x[5], reverse=True)` on line 387: equal
keys keep their original relative order. -/
def insertDesc (x : SpreadCand) : List SpreadCand → List SpreadCand
  | [] => [x]
  | y :: ys => if y.spc ≤ x.spc then x :: y :: ys else y :: insertDesc x ys

/-- Stable descending sort by `spread_pct`. -/
def sortSpreadsDesc : List SpreadCand → List SpreadCand
  | [] => []
  | x :: xs => insertDesc x (sortSpreadsDesc xs)

/-- Line 387: the spread candidates actually iterated over, the first
`REPORT_LIMIT` of the descending-sorted spreads. -/
def considered (cfg : Config) (spreads : List SpreadCand) : List SpreadCand :=
  (sortSpreadsDesc spreads).take cfg.REPORT_LIMIT

/-- The exchanges present in the `DEPTH_FETCHERS` dictionary
(lines 211-217). -/
def exInFetchers (ex : String) : Bool :=
  ex = "binance" || ex = "kucoin" || ex = "mexc" || ex = "bitget" || ex = "okx"

/-- What a depth fetcher call returns for a given exchange and symbol in
one scan: either a pair whose components are the bid and ask lists
(`(none, none)` embeds the Python return value `(None, None)`), or an
uncaught exception raised inside the fetcher (e.g. the okx IndexError). -/
abbrev DepthEnv : Type :=
  String → String → Except String (Option (List Level) × Option (List Level))

/-- Lines 393-396: `DEPTH_FETCHERS[ex](s)` when `ex` is a key of the
dictionary, `None` (outer `none`) otherwise. -/
def fetchDepth (depthOf : DepthEnv) (ex s : String) :
    Except String (Option (Option (List Level) × Option (List Level))) :=
  if exInFetchers ex then (depthOf ex s).map some else .ok none

/-- Line 405: the capital limit `run` passes to `evaluate_pair`,
`MIN_NOTIONAL_USDT*10 if MIN_NOTIONAL_USDT*10 > MIN_NOTIONAL_USDT else
MIN_NOTIONAL_USDT`. -/
def capitalLimit (cfg : Config) : ℚ :=
  if cfg.MIN_NOTIONAL_USDT < cfg.MIN_NOTIONAL_USDT * 10 then
    cfg.MIN_NOTIONAL_USDT * 10
  else cfg.MIN_NOTIONAL_USDT

/-- An element of the `alerts` list (line 407). -/
structure Alert where
  cand : SpreadCand
  best : Best
deriving DecidableEq

/-- Body of the candidate loop of lines 387-407, recursion over the
considered candidates with the `alerts` accumulator. A `(None, None)`
depth pair is truthy in Python, so the `if not buy_depth or not
sell_depth` check on line 398 skips only when the exchange is missing
from `DEPTH_FETCHERS`; a `None` component reaches `evaluate_pair` and
raises TypeError (line 263 or 265), which aborts the whole scan. -/
def alertsGo (cfg : Config) (depthOf : DepthEnv) :
    List SpreadCand → List Alert → Except String (List Alert)
  | [], acc => .ok acc
  | c :: rest, acc =>
    if c.spc < cfg.MIN_SPREAD_PCT then alertsGo cfg depthOf rest acc
    else
      match fetchDepth depthOf c.a_ex c.sym with
      | .error e => .error e
      | .ok buy_depth =>
        match fetchDepth depthOf c.b_ex c.sym with
        | .error e => .error e
        | .ok sell_depth =>
          match buy_depth, sell_depth with
          | none, _ => alertsGo cfg depthOf rest acc
          | some _, none => alertsGo cfg depthOf rest acc
          | some bd, some sd =>
            match bd.2, sd.1 with
            | some buy_asks, some sell_bids =>
              let best := evaluate_pair cfg buy_asks sell_bids (1 / 500) (1 / 500)
                (capitalLimit cfg)
              if 0 < best.profit ∧ cfg.MIN_NOTIONAL_USDT ≤ best.notional ∧
                  cfg.MIN_PROFIT_USDT ≤ best.profit then
                alertsGo cfg depthOf rest (acc ++ [{ cand := c, best := best }])
              else alertsGo cfg depthOf rest acc
            | _, _ => .error "NoneType object is not subscriptable"

/-- Lines 386-407: evaluate the considered spread candidates into the
`alerts` list; `.error` is an uncaught exception reaching the blanket
handler of `run`. -/
def scanAlerts (cfg : Config) (depthOf : DepthEnv) (spreads : List SpreadCand) :
    Except String (List Alert) :=
  alertsGo cfg depthOf (considered cfg spreads) []

/-- The environment one scan iteration observes: per-exchange adapter
outcomes of step 1 (the symbol map an adapter built from its HTTP
responses, or the exception it raised), the 24h-volume fetch results,
the depth fetch results, the wall clock, the formatted timestamp, and
whether a Telegram POST would raise. -/
structure ScanEnv where
  topoResults : List (String × Except String (List (String × (ℚ × ℚ))))
  volFetch : String → Option ℚ
  depthOf : DepthEnv
  now : ℚ
  timestamp : String
  tgFails : Bool

/-- In-memory loop variables together with the on-disk CSV file. Only
`csvFile` models state outside the process; `last_hb` is an ordinary
local variable of `run` that vanishes on restart. -/
structure LoopState where
  csvFile : Option (List Row)
  last_hb : ℚ
deriving DecidableEq

/-- Lines 308-352, step 1: build the `topo` dictionary in `EXCHANGES`
order; an adapter exception is caught by the inner handler, which sends
a Telegram warning and continues; an empty symbol map is not inserted
(the `if ex_map:` guards). -/
def buildTopo (cfg : Config) (env : ScanEnv) : Topo × List Effect :=
  env.topoResults.foldl
    (fun acc exr =>
      match exr.2 with
      | .error e =>
        (acc.1, acc.2 ++ send_telegram cfg ("Adapter error " ++ exr.1 ++ ": " ++ e) env.tgFails)
      | .ok m => (if m = [] then acc.1 else acc.1 ++ [(exr.1, m)], acc.2))
    ([], [])

/-- Placeholder buy execution (an alert always carries a real one). -/
def emptyBuyEst : BuyEst :=
  { spent := 0, acquired := 0, avg := none, levels_used := [] }

/-- Placeholder sell execution (an alert always carries a real one). -/
def emptySellEst : SellEst :=
  { received := 0, sold := 0, avg := none, levels_used := [] }

/-- The CSV row logged for one alert on line 418. -/
def csvRowOf (ts : String) (a : Alert) : Row :=
  [.str ts, .str a.cand.sym, .str a.cand.a_ex, .str a.cand.b_ex,
   .num (round2 a.best.notional), .num (round2 a.best.profit),
   .num (round4 a.best.profit_pct),
   .levels (a.best.buy_exec.getD emptyBuyEst).levels_used,
   .levels (a.best.sell_exec.getD emptySellEst).levels_used]

/-- The alert text of lines 410-416 (the formatted per-symbol lines; the
exact float formatting is abstracted to the symbol and route names). -/
def alertText (ts : String) (alerts : List Alert) : String :=
  String.intercalate "\n"
    (("Low-liq Arb Alerts " ++ ts) ::
      alerts.map (fun a => a.cand.sym ++ ": Buy " ++ a.cand.a_ex ++ " Sell " ++ a.cand.b_ex))

/-- Lines 409-419, step 5 when `alerts` is nonempty: log each alert row to
the CSV file, then send the joined alert message once. -/
def sendAlerts (cfg : Config) (env : ScanEnv) (alerts : List Alert)
    (csv0 : Option (List Row)) : List Effect × Option (List Row) :=
  let rows := alerts.map (csvRowOf env.timestamp)
  (rows.map Effect.csvAppend ++ send_telegram cfg (alertText env.timestamp alerts) env.tgFails,
   rows.foldl (fun c r => some (log_to_csv c r)) csv0)

/-- Lines 306-427: the `try` body of one iteration of the main loop, from
building `topo` through alerts and heartbeat. `.error` is an exception
reaching the blanket handler on line 429. -/
def iterationBody (cfg : Config) (env : ScanEnv) (st : LoopState) :
    Except String (List Effect × LoopState) :=
  let tw := buildTopo cfg env
  let check_symbols := lowliqFilter cfg env.volFetch cfg.symbols
  let spreads := computeSpreads tw.1 check_symbols
  match scanAlerts cfg env.depthOf spreads with
  | .error e => .error e
  | .ok alerts =>
    let afx :=
      if alerts = [] then ([], st.csvFile)
      else sendAlerts cfg env alerts st.csvFile
    let hfx :=
      if cfg.HEARTBEAT_INTERVAL < env.now - st.last_hb then
        (send_telegram cfg "Low-liq arb bot heartbeat: running." env.tgFails, env.now)
      else ([], st.last_hb)
    .ok (tw.2 ++ afx.1 ++ hfx.1, { csvFile := afx.2, last_hb := hfx.2 })

/-- Lines 305-436: one full iteration of `while True`. A body exception is
caught by the blanket `except Exception` handler, which notifies the
error over Telegram (itself guarded by a `try` whose `except` prints);
in either case the iteration ends with `time.sleep(SCAN_INTERVAL)`. -/
def iterate (cfg : Config) (env : ScanEnv) (st : LoopState) : List Effect × LoopState :=
  match iterationBody cfg env st with
  | .ok r => (r.1 ++ [.sleepFor cfg.SCAN_INTERVAL], r.2)
  | .error e =>
    (send_telegram cfg ("Bot runtime error: " ++ e) env.tgFails ++
       [.sleepFor cfg.SCAN_INTERVAL], st)

/-- The effect trace of the first `n` iterations of the main loop, the
`k`-th iteration observing environment `envs k`. The loop has no exit:
every iteration is total and is followed by another. -/
def trace (cfg : Config) (envs : ℕ → ScanEnv) : ℕ → LoopState → List Effect
  | 0, _ => []
  | n + 1, st =>
    let r := iterate cfg (envs n) st
    r.1 ++ trace cfg envs n r.2

/-- Recognizer for sleep effects. -/
def isSleep : Effect → Bool
  | .sleepFor _ => true
  | _ => false

/-- Recognizer for HTTP POST effects. -/
def isPost : Effect → Bool
  | .httpPost _ => true
  | _ => false

/-- Recognizer for writes to the persistent CSV file. -/
def isFileWrite : Effect → Bool
  | .csvAppend _ => true
  | _ => false

instance exceptDecEq {ε α : Type} [DecidableEq ε] [DecidableEq α] :
    DecidableEq (Except ε α) := fun x y =>
  match x, y with
  | .ok a, .ok b =>
    if h : a = b then .isTrue (by rw [h]) else .isFalse (fun hh => by cases hh; exact h rfl)
  | .error a, .error b =>
    if h : a = b then .isTrue (by rw [h]) else .isFalse (fun hh => by cases hh; exact h rfl)
  | .ok _, .error _ => .isFalse (fun hh => by cases hh)
  | .error _, .ok _ => .isFalse (fun hh => by cases hh)

/-- Sum of the notional components of a `levels_used` list. -/
def sumNotionals (l : List (ℚ × ℚ × ℚ)) : ℚ := (l.map (fun t => t.2.2)).sum

/-- Sum of the quantity components of a `levels_used` list. -/
def sumQtys (l : List (ℚ × ℚ × ℚ)) : ℚ := (l.map (fun t => t.2.1)).sum

lemma buyWalk_cons_stop (price qty : ℚ) (rest : List Level) (r : ℚ) (h : r ≤ 0) :
    buyWalk ((price, qty) :: rest) r = (0, 0, []) := by
  simp [buyWalk, h]

lemma buyWalk_cons (price qty : ℚ) (rest : List Level) (r : ℚ) (h : ¬ r ≤ 0) :
    buyWalk ((price, qty) :: rest) r =
      (min (price * qty) r + (buyWalk rest (r - min (price * qty) r)).1,
       min (price * qty) r / price + (buyWalk rest (r - min (price * qty) r)).2.1,
       (price, min (price * qty) r / price, min (price * qty) r) ::
         (buyWalk rest (r - min (price * qty) r)).2.2) := by
  simp [buyWalk, h]

lemma sellWalk_cons_stop (price qty : ℚ) (rest : List Level) (r : ℚ) (h : r ≤ 0) :
    sellWalk ((price, qty) :: rest) r = (0, 0, []) := by
  simp [sellWalk, h]

lemma sellWalk_cons (price qty : ℚ) (rest : List Level) (r : ℚ) (h : ¬ r ≤ 0) :
    sellWalk ((price, qty) :: rest) r =
      (min qty r * price + (sellWalk rest (r - min qty r)).1,
       min qty r + (sellWalk rest (r - min qty r)).2.1,
       (price, min qty r, min qty r * price) :: (sellWalk rest (r - min qty r)).2.2) := by
  simp [sellWalk, h]

lemma buyWalk_spent_le (asks : List Level) : ∀ r : ℚ, 0 ≤ r → (buyWalk asks r).1 ≤ r := by
  induction asks with
  | nil => intro r hr; simpa [buyWalk] using hr
  | cons l rest ih =>
    intro r hr
    obtain ⟨price, qty⟩ := l
    by_cases h : r ≤ 0
    · rw [buyWalk_cons_stop _ _ _ _ h]; exact hr
    · rw [buyWalk_cons _ _ _ _ h]
      have hu : min (price * qty) r ≤ r := min_le_right _ _
      have := ih (r - min (price * qty) r) (by linarith)
      dsimp only
      linarith

lemma sellWalk_sold_le (bids : List Level) : ∀ r : ℚ, 0 ≤ r → (sellWalk bids r).2.1 ≤ r := by
  induction bids with
  | nil => intro r hr; simpa [sellWalk] using hr
  | cons l rest ih =>
    intro r hr
    obtain ⟨price, qty⟩ := l
    by_cases h : r ≤ 0
    · rw [sellWalk_cons_stop _ _ _ _ h]; exact hr
    · rw [sellWalk_cons _ _ _ _ h]
      have hu : min qty r ≤ r := min_le_right _ _
      have := ih (r - min qty r) (by linarith)
      dsimp only
      linarith

lemma buyWalk_sums (asks : List Level) :
    ∀ r : ℚ, (buyWalk asks r).1 = sumNotionals (buyWalk asks r).2.2 ∧
      (buyWalk asks r).2.1 = sumQtys (buyWalk asks r).2.2 := by
  induction asks with
  | nil => intro r; simp [buyWalk, sumNotionals, sumQtys]
  | cons l rest ih =>
    intro r
    obtain ⟨price, qty⟩ := l
    by_cases h : r ≤ 0
    · rw [buyWalk_cons_stop _ _ _ _ h]; simp [sumNotionals, sumQtys]
    · rw [buyWalk_cons _ _ _ _ h]
      have := ih (r - min (price * qty) r)
      simp only [sumNotionals, sumQtys, List.map_cons, List.sum_cons] at this ⊢
      constructor <;> [rw [this.1]; rw [this.2]]

lemma sellWalk_sums (bids : List Level) :
    ∀ r : ℚ, (sellWalk bids r).1 = sumNotionals (sellWalk bids r).2.2 ∧
      (sellWalk bids r).2.1 = sumQtys (sellWalk bids r).2.2 := by
  induction bids with
  | nil => intro r; simp [sellWalk, sumNotionals, sumQtys]
  | cons l rest ih =>
    intro r
    obtain ⟨price, qty⟩ := l
    by_cases h : r ≤ 0
    · rw [sellWalk_cons_stop _ _ _ _ h]; simp [sumNotionals, sumQtys]
    · rw [sellWalk_cons _ _ _ _ h]
      have := ih (r - min qty r)
      simp only [sumNotionals, sumQtys, List.map_cons, List.sum_cons] at this ⊢
      constructor <;> [rw [this.1]; rw [this.2]]

lemma buyWalk_spent_nonneg (asks : List Level) (hpos : ∀ l ∈ asks, 0 < l.1 ∧ 0 < l.2) :
    ∀ r : ℚ, 0 ≤ (buyWalk asks r).1 := by
  induction asks with
  | nil => intro r; simp [buyWalk]
  | cons l rest ih =>
    intro r
    obtain ⟨price, qty⟩ := l
    have hrest : ∀ l ∈ rest, 0 < l.1 ∧ 0 < l.2 := fun l hl => hpos l (List.mem_cons_of_mem _ hl)
    by_cases h : r ≤ 0
    · rw [buyWalk_cons_stop _ _ _ _ h]
    · rw [buyWalk_cons _ _ _ _ h]
      have hpq : 0 < price * qty := by
        have := hpos (price, qty) (List.mem_cons_self _ _)
        exact mul_pos this.1 this.2
      have hu : 0 < min (price * qty) r := lt_min hpq (by linarith)
      have := ih hrest (r - min (price * qty) r)
      dsimp only
      linarith

lemma buyWalk_spent_pos (asks : List Level) (hpos : ∀ l ∈ asks, 0 < l.1 ∧ 0 < l.2)
    (r : ℚ) (hr : 0 < r) (hacq : 0 < (buyWalk asks r).2.1) : 0 < (buyWalk asks r).1 := by
  cases asks with
  | nil => simp [buyWalk] at hacq
  | cons l rest =>
    obtain ⟨price, qty⟩ := l
    have h : ¬ r ≤ 0 := by linarith
    rw [buyWalk_cons _ _ _ _ h]
    have hpq : 0 < price * qty := by
      have := hpos (price, qty) (List.mem_cons_self _ _)
      exact mul_pos this.1 this.2
    have hu : 0 < min (price * qty) r := lt_min hpq hr
    have hrest : ∀ l ∈ rest, 0 < l.1 ∧ 0 < l.2 := fun l hl => hpos l (List.mem_cons_of_mem _ hl)
    have := buyWalk_spent_nonneg rest hrest (r - min (price * qty) r)
    dsimp only
    linarith

/-- C4. For every nonnegative budget and positive-price level lists, the
depth-walking estimators never exceed their budget: `estimate_buy_from_asks`
spends at most `target_notional`, its `spent` and `acquired` are the sums of
the per-level notionals and quantities of `levels_used`;
`estimate_sell_on_bids` sells at most `target_base_qty` and its `received`
is the sum of the per-level notionals of `levels_used`; each reports the
average price `spent/acquired` (resp. `received/sold`) exactly when the
denominator is positive, and `None` otherwise. -/
theorem estimators_respect_budget (asks bids : List Level)
    (target_notional target_base_qty : ℚ)
    (hn : 0 ≤ target_notional) (hq : 0 ≤ target_base_qty)
    (ha : ∀ l ∈ asks, 0 < l.1) (hb : ∀ l ∈ bids, 0 < l.1) :
    (estimate_buy_from_asks asks target_notional).spent ≤ target_notional ∧
    (estimate_buy_from_asks asks target_notional).spent =
      sumNotionals (estimate_buy_from_asks asks target_notional).levels_used ∧
    (estimate_buy_from_asks asks target_notional).acquired =
      sumQtys (estimate_buy_from_asks asks target_notional).levels_used ∧
    (0 < (estimate_buy_from_asks asks target_notional).acquired →
      (estimate_buy_from_asks asks target_notional).avg =
        some ((estimate_buy_from_asks asks target_notional).spent /
          (estimate_buy_from_asks asks target_notional).acquired)) ∧
    (¬ 0 < (estimate_buy_from_asks asks target_notional).acquired →
      (estimate_buy_from_asks asks target_notional).avg = none) ∧
    (estimate_sell_on_bids bids target_base_qty).sold ≤ target_base_qty ∧
    (estimate_sell_on_bids bids target_base_qty).received =
      sumNotionals (estimate_sell_on_bids bids target_base_qty).levels_used ∧
    (0 < (estimate_sell_on_bids bids target_base_qty).sold →
      (estimate_sell_on_bids bids target_base_qty).avg =
        some ((estimate_sell_on_bids bids target_base_qty).received /
          (estimate_sell_on_bids bids target_base_qty).sold)) ∧
    (¬ 0 < (estimate_sell_on_bids bids target_base_qty).sold →
      (estimate_sell_on_bids bids target_base_qty).avg = none) := by
  have hbuy := buyWalk_sums asks target_notional
  have hsell := sellWalk_sums bids target_base_qty
  refine ⟨buyWalk_spent_le asks target_notional hn, hbuy.1, hbuy.2, ?_, ?_,
    sellWalk_sold_le bids target_base_qty hq, hsell.1, ?_, ?_⟩ <;>
    intro h <;> simp [estimate_buy_from_asks, estimate_sell_on_bids, h] at h ⊢ <;> simp [h]

lemma mem_insertAsc {a x : ℚ} : ∀ {l : List ℚ}, a ∈ insertAsc x l ↔ a = x ∨ a ∈ l := by
  intro l
  induction l with
  | nil => simp [insertAsc]
  | cons y ys ih =>
    by_cases h : x ≤ y
    · simp [insertAsc, h]
    · simp [insertAsc, h, ih]
      tauto

lemma mem_sortAsc {a : ℚ} : ∀ {l : List ℚ}, a ∈ sortAsc l ↔ a ∈ l := by
  intro l
  induction l with
  | nil => simp [sortAsc]
  | cons y ys ih => simp [sortAsc, mem_insertAsc, ih]

lemma candidateNotionals_gt_one (cfg : Config) (buy_asks sell_bids : List Level)
    (capital_limit : ℚ) :
    ∀ n ∈ candidateNotionals cfg buy_asks sell_bids capital_limit, 1 < n := by
  intro n hn
  rw [candidateNotionals, mem_sortAsc] at hn
  exact (List.mem_filter.mp hn).2 |> of_decide_eq_true

/-- The invariant C3 states about the result of `evaluate_pair`: either
the initial sentinel, or a strictly profitable result consistent with the
stored simulated executions and capped by the capital limit. -/
def GoodBest (fee_buy fee_sell capital_limit : ℚ) (b : Best) : Prop :=
  (b.notional = 0 ∧ b.profit = -(10 ^ 9)) ∨
  (0 < b.profit ∧ ∃ be se, b.buy_exec = some be ∧ b.sell_exec = some se ∧
    b.profit = se.received * (1 - fee_sell) - be.spent * (1 + fee_buy) ∧
    b.profit_pct = b.profit / (be.spent * (1 + fee_buy)) * 100 ∧
    b.notional = be.spent ∧ b.notional ≤ capital_limit + 1 / 1000000000)

lemma evalStep_good {buy_asks sell_bids : List Level} {fee_buy fee_sell capital_limit : ℚ}
    (hpos : ∀ l ∈ buy_asks, 0 < l.1 ∧ 0 < l.2) (hfb : 0 ≤ fee_buy)
    {best : Best} {n : ℚ} (hn : 1 < n)
    (h : GoodBest fee_buy fee_sell capital_limit best) :
    GoodBest fee_buy fee_sell capital_limit
      (evalStep buy_asks sell_bids fee_buy fee_sell capital_limit best n) := by
  unfold evalStep
  split
  · exact h
  · rename_i hcap
    dsimp only
    split
    · exact h
    · rename_i hacq
      split
      · exact h
      · split
        · rename_i hupd
          right
          have hacq' : 0 < (estimate_buy_from_asks buy_asks n).acquired := lt_of_not_le hacq
          have hspent : 0 < (estimate_buy_from_asks buy_asks n).spent :=
            buyWalk_spent_pos buy_asks hpos n (by linarith) hacq'
          have hcost : 0 < (estimate_buy_from_asks buy_asks n).spent * (1 + fee_buy) :=
            mul_pos hspent (by linarith)
          refine ⟨hupd.2, estimate_buy_from_asks buy_asks n,
            estimate_sell_on_bids sell_bids (estimate_buy_from_asks buy_asks n).acquired,
            rfl, rfl, rfl, ?_, rfl, ?_⟩
          · simp [if_pos hcost]
          · have h1 : (estimate_buy_from_asks buy_asks n).spent ≤ n :=
              buyWalk_spent_le buy_asks n (by linarith)
            have h2 : n ≤ capital_limit + 1 / 1000000000 := le_of_not_lt hcap
            exact le_trans h1 h2
        · exact h

lemma foldl_evalStep_good {buy_asks sell_bids : List Level}
    {fee_buy fee_sell capital_limit : ℚ}
    (hpos : ∀ l ∈ buy_asks, 0 < l.1 ∧ 0 < l.2) (hfb : 0 ≤ fee_buy) :
    ∀ (l : List ℚ) (best : Best), (∀ n ∈ l, 1 < n) →
      GoodBest fee_buy fee_sell capital_limit best →
      GoodBest fee_buy fee_sell capital_limit
        (l.foldl (evalStep buy_asks sell_bids fee_buy fee_sell capital_limit) best) := by
  intro l
  induction l with
  | nil => intro best _ h; exact h
  | cons n rest ih =>
    intro best hl h
    exact ih _ (fun m hm => hl m (List.mem_cons_of_mem _ hm))
      (evalStep_good hpos hfb (hl n (List.mem_cons_self _ _)) h)

/-- C3. For positive order books and fee rates in `[0, 1)`, `evaluate_pair`
returns either the initial sentinel (`notional 0`, `profit -1e9`) or a
strictly profitable result whose `profit`, `profit_pct` and `notional`
agree with the stored simulated buy/sell executions, with
`notional ≤ capital_limit + 1e-9`. -/
theorem evaluate_pair_sound (cfg : Config) (buy_asks sell_bids : List Level)
    (fee_buy fee_sell capital_limit : ℚ)
    (hbpos : ∀ l ∈ buy_asks, 0 < l.1 ∧ 0 < l.2)
    (hspos : ∀ l ∈ sell_bids, 0 < l.1 ∧ 0 < l.2)
    (hfb : 0 ≤ fee_buy ∧ fee_buy < 1) (hfs : 0 ≤ fee_sell ∧ fee_sell < 1) :
    GoodBest fee_buy fee_sell capital_limit
      (evaluate_pair cfg buy_asks sell_bids fee_buy fee_sell capital_limit) :=
  foldl_evalStep_good hbpos hfb.1 _ initBest
    (candidateNotionals_gt_one cfg buy_asks sell_bids capital_limit)
    (Or.inl ⟨rfl, rfl⟩)

lemma lowliqKeep_iff (cfg : Config) (volFetch : String → Option ℚ) (s : String) :
    lowliqKeep cfg volFetch s = true ↔
      ¬ ("binance" ∈ cfg.EXCHANGES ∧
         ∃ v, volFetch s = some v ∧ v ≠ 0 ∧ cfg.MAX_AVG_VOLUME_USDT < v) := by
  unfold lowliqKeep
  by_cases hbin : "binance" ∈ cfg.EXCHANGES
  · have hc : cfg.EXCHANGES.contains "binance" = true := by
      simpa [List.contains] using List.elem_iff.mpr hbin
    rw [if_pos hc]
    cases hvf : volFetch s with
    | none => simp [hbin, hvf]
    | some v =>
      by_cases hv0 : v = 0
      · subst hv0; simp [hbin, hvf]
      · simp only [hv0, if_false, hvf, reduceCtorEq]
        simp [hbin, hv0, not_lt]
  · have hc : cfg.EXCHANGES.contains "binance" = false := by
      simp [List.contains]
      exact hbin
    rw [if_neg (by simp [List.contains]; exact hbin)]
    simp [hbin]

/-- C10. A symbol is excluded from the low-liquidity candidates exactly
when `"binance"` is among the configured exchanges and the 24h
quote-volume fetch returned a truthy (nonzero, non-`None`) value strictly
above `MAX_AVG_VOLUME_USDT`; in particular a symbol whose volume fetch
failed, was missing, or reported exactly zero is always kept. -/
theorem lowliq_filter_spec (cfg : Config) (volFetch : String → Option ℚ)
    (symbols : List String) (s : String) :
    (s ∈ lowliqFilter cfg volFetch symbols ↔
      s ∈ symbols ∧ ¬ ("binance" ∈ cfg.EXCHANGES ∧
        ∃ v, volFetch s = some v ∧ v ≠ 0 ∧ cfg.MAX_AVG_VOLUME_USDT < v)) ∧
    (s ∈ symbols → (volFetch s = none ∨ volFetch s = some 0) →
      s ∈ lowliqFilter cfg volFetch symbols) := by
  constructor
  · rw [lowliqFilter, List.mem_filter, lowliqKeep_iff]
  · intro hs hv
    rw [lowliqFilter, List.mem_filter, lowliqKeep_iff]
    refine ⟨hs, fun hcon => ?_⟩
    obtain ⟨-, v, hveq, hvne, -⟩ := hcon
    cases hv with
    | inl h => rw [h] at hveq; cases hveq
    | inr h => rw [h] at hveq; cases hveq; exact hvne rfl

/-- C9. `send_telegram` never raises: with a falsy token or chat id it
only prints and performs no HTTP request; otherwise it performs exactly
one HTTP POST, to the Telegram sendMessage endpoint only, and an
exception raised by the request is swallowed into a print. -/
theorem send_telegram_spec (cfg : Config) (text : String) (postRaises : Bool) :
    ((truthyStr cfg.TELEGRAM_TOKEN = false ∨ truthyStr cfg.CHAT_ID = false) →
      send_telegram cfg text postRaises =
        [.print "Missing TELEGRAM_TOKEN or CHAT_ID; cannot send Telegram messages."] ∧
      ∀ e ∈ send_telegram cfg text postRaises, isPost e = false) ∧
    (truthyStr cfg.TELEGRAM_TOKEN = true → truthyStr cfg.CHAT_ID = true →
      (send_telegram cfg text postRaises).filter isPost = [.httpPost (telegramUrl cfg)] ∧
      (postRaises = true → send_telegram cfg text postRaises =
        [.httpPost (telegramUrl cfg), .print ("Telegram send error: " ++ text)])) := by
  constructor
  · intro hmiss
    have hcond : (!truthyStr cfg.TELEGRAM_TOKEN || !truthyStr cfg.CHAT_ID) = true := by
      cases hmiss with
      | inl h => simp [h]
      | inr h => simp [h]
    constructor
    · simp [send_telegram, hcond]
    · intro e he
      simp [send_telegram, hcond] at he
      simp [he, isPost]
  · intro ht hc
    have hcond : (!truthyStr cfg.TELEGRAM_TOKEN || !truthyStr cfg.CHAT_ID) = false := by
      simp [ht, hc]
    constructor
    · cases postRaises <;> simp [send_telegram, hcond, isPost, List.filter]
    · intro hr; subst hr; simp [send_telegram, hcond]

/-- C7. Whenever a depth fetcher returns lists rather than `(None, None)`,
both the bids and the asks contain at most `DEPTH_LEVELS` levels, for all
five exchange adapters. -/
theorem depth_fetchers_bounded (cfg : Config) (r1 r2 r3 r4 : Option DepthResp)
    (r5 : Option (List DepthResp)) :
    (∀ b a, fetch_binance_depth cfg r1 = (some b, some a) →
      b.length ≤ cfg.DEPTH_LEVELS ∧ a.length ≤ cfg.DEPTH_LEVELS) ∧
    (∀ b a, fetch_kucoin_depth cfg r2 = (some b, some a) →
      b.length ≤ cfg.DEPTH_LEVELS ∧ a.length ≤ cfg.DEPTH_LEVELS) ∧
    (∀ b a, fetch_mexc_depth cfg r3 = (some b, some a) →
      b.length ≤ cfg.DEPTH_LEVELS ∧ a.length ≤ cfg.DEPTH_LEVELS) ∧
    (∀ b a, fetch_bitget_depth cfg r4 = (some b, some a) →
      b.length ≤ cfg.DEPTH_LEVELS ∧ a.length ≤ cfg.DEPTH_LEVELS) ∧
    (∀ b a, fetch_okx_depth cfg r5 = .ok (some b, some a) →
      b.length ≤ cfg.DEPTH_LEVELS ∧ a.length ≤ cfg.DEPTH_LEVELS) := by
  refine ⟨?_, ?_, ?_, ?_, ?_⟩
  · intro b a h
    cases r1 with
    | none => simp [fetch_binance_depth] at h
    | some d =>
      simp only [fetch_binance_depth, Prod.mk.injEq, Option.some.injEq] at h
      rw [← h.1, ← h.2]
      exact ⟨List.length_take_le _ _, List.length_take_le _ _⟩
  · intro b a h
    cases r2 with
    | none => simp [fetch_kucoin_depth] at h
    | some d =>
      simp only [fetch_kucoin_depth, Prod.mk.injEq, Option.some.injEq] at h
      rw [← h.1, ← h.2]
      exact ⟨List.length_take_le _ _, List.length_take_le _ _⟩
  · intro b a h
    cases r3 with
    | none => simp [fetch_mexc_depth] at h
    | some d =>
      simp only [fetch_mexc_depth, Prod.mk.injEq, Option.some.injEq] at h
      rw [← h.1, ← h.2]
      exact ⟨List.length_take_le _ _, List.length_take_le _ _⟩
  · intro b a h
    cases r4 with
    | none => simp [fetch_bitget_depth] at h
    | some d =>
      simp only [fetch_bitget_depth, Prod.mk.injEq, Option.some.injEq] at h
      rw [← h.1, ← h.2]
      exact ⟨List.length_take_le _ _, List.length_take_le _ _⟩
  · intro b a h
    cases r5 with
    | none => simp [fetch_okx_depth] at h
    | some books =>
      cases books with
      | nil => simp [fetch_okx_depth] at h
      | cons d rest =>
        simp only [fetch_okx_depth, Except.ok.injEq, Prod.mk.injEq, Option.some.injEq] at h
        rw [← h.1, ← h.2]
        exact ⟨List.length_take_le _ _, List.length_take_le _ _⟩

/-- The truthy (nonzero) asks of symbol `s` across the exchanges of
`topo` whose ticker map contains `s`, with their exchange names. -/
def truthyAsks (topo : Topo) (s : String) : List (String × ℚ) :=
  topo.filterMap (fun exm =>
    match lookupSym s exm.2 with
    | some pr => if pr.2 ≠ 0 then some (exm.1, pr.2) else none
    | none => none)

/-- The truthy (nonzero) bids of symbol `s` across the exchanges of
`topo` whose ticker map contains `s`, with their exchange names. -/
def truthyBids (topo : Topo) (s : String) : List (String × ℚ) :=
  topo.filterMap (fun exm =>
    match lookupSym s exm.2 with
    | some pr => if pr.1 ≠ 0 then some (exm.1, pr.1) else none
    | none => none)

/-- Invariant of the spread scan fold: starting from accumulator `acc`
over the entries `l`, the result `r` bounds every truthy ask from below
and every truthy bid from above, never worsens the accumulator, and
either leaves a tracker untouched or records a strictly better value
found in `l` together with an exchange attaining it. -/
def ScanInv (s : String) (l : Topo) (acc r : ℚ × Option String × ℚ × Option String) : Prop :=
  (∀ p ∈ truthyAsks l s, r.1 ≤ p.2) ∧ r.1 ≤ acc.1 ∧
  ((r.1 = acc.1 ∧ r.2.1 = acc.2.1) ∨
    (r.1 < acc.1 ∧ ∃ ex, r.2.1 = some ex ∧ (ex, r.1) ∈ truthyAsks l s)) ∧
  (∀ p ∈ truthyBids l s, p.2 ≤ r.2.2.1) ∧ acc.2.2.1 ≤ r.2.2.1 ∧
  ((r.2.2.1 = acc.2.2.1 ∧ r.2.2.2 = acc.2.2.2) ∨
    (acc.2.2.1 < r.2.2.1 ∧ ∃ ex, r.2.2.2 = some ex ∧ (ex, r.2.2.1) ∈ truthyBids l s))

lemma truthyAsks_cons (x : String × List (String × (ℚ × ℚ))) (l : Topo) (s : String) :
    truthyAsks (x :: l) s =
      (match lookupSym s x.2 with
       | some pr => if pr.2 ≠ 0 then (x.1, pr.2) :: truthyAsks l s else truthyAsks l s
       | none => truthyAsks l s) := by
  rcases h : lookupSym s x.2 with _ | pr
  · simp [truthyAsks, List.filterMap_cons, h]
  · by_cases hz : pr.2 = 0 <;> simp [truthyAsks, List.filterMap_cons, h, hz]

lemma truthyBids_cons (x : String × List (String × (ℚ × ℚ))) (l : Topo) (s : String) :
    truthyBids (x :: l) s =
      (match lookupSym s x.2 with
       | some pr => if pr.1 ≠ 0 then (x.1, pr.1) :: truthyBids l s else truthyBids l s
       | none => truthyBids l s) := by
  rcases h : lookupSym s x.2 with _ | pr
  · simp [truthyBids, List.filterMap_cons, h]
  · by_cases hz : pr.1 = 0 <;> simp [truthyBids, List.filterMap_cons, h, hz]

lemma askPart_updated {s : String} {x : String × List (String × (ℚ × ℚ))} {l : Topo}
    {bid ask : ℚ} {acc : ℚ × Option String × ℚ × Option String}
    (hlk : lookupSym s x.2 = some (bid, ask)) (hca : ask ≠ 0 ∧ ask < acc.1)
    {v : ℚ} {e : Option String}
    (ha1 : ∀ p ∈ truthyAsks l s, v ≤ p.2) (ha2 : v ≤ ask)
    (ha3 : (v = ask ∧ e = some x.1) ∨
      (v < ask ∧ ∃ ex, e = some ex ∧ (ex, v) ∈ truthyAsks l s)) :
    (∀ p ∈ truthyAsks (x :: l) s, v ≤ p.2) ∧ v ≤ acc.1 ∧
      ((v = acc.1 ∧ e = acc.2.1) ∨
        (v < acc.1 ∧ ∃ ex, e = some ex ∧ (ex, v) ∈ truthyAsks (x :: l) s)) := by
  have htac : truthyAsks (x :: l) s = (x.1, ask) :: truthyAsks l s := by
    rw [truthyAsks_cons]; simp only [hlk, if_pos hca.1]
  refine ⟨?_, by linarith [hca.2], Or.inr ?_⟩
  · rw [htac]
    intro p hp
    rcases List.mem_cons.mp hp with hph | hpt
    · rw [hph]; exact ha2
    · exact ha1 p hpt
  · rcases ha3 with ⟨he, hx⟩ | ⟨hlt, ex, hex, hmem⟩
    · exact ⟨by rw [he]; exact hca.2, x.1, hx, by rw [htac, he]; exact List.mem_cons_self _ _⟩
    · exact ⟨by linarith [hca.2], ex, hex, by rw [htac]; exact List.mem_cons_of_mem _ hmem⟩

lemma askPart_kept {s : String} {x : String × List (String × (ℚ × ℚ))} {l : Topo}
    {bid ask : ℚ} {acc : ℚ × Option String × ℚ × Option String}
    (hlk : lookupSym s x.2 = some (bid, ask)) (hca : ¬ (ask ≠ 0 ∧ ask < acc.1))
    {v : ℚ} {e : Option String}
    (ha1 : ∀ p ∈ truthyAsks l s, v ≤ p.2) (ha2 : v ≤ acc.1)
    (ha3 : (v = acc.1 ∧ e = acc.2.1) ∨
      (v < acc.1 ∧ ∃ ex, e = some ex ∧ (ex, v) ∈ truthyAsks l s)) :
    (∀ p ∈ truthyAsks (x :: l) s, v ≤ p.2) ∧ v ≤ acc.1 ∧
      ((v = acc.1 ∧ e = acc.2.1) ∨
        (v < acc.1 ∧ ∃ ex, e = some ex ∧ (ex, v) ∈ truthyAsks (x :: l) s)) := by
  have htac : truthyAsks (x :: l) s =
      (if ask ≠ 0 then (x.1, ask) :: truthyAsks l s else truthyAsks l s) := by
    rw [truthyAsks_cons]; simp only [hlk]
  refine ⟨?_, ha2, ?_⟩
  · rw [htac]
    by_cases hz : ask ≠ 0
    · rw [if_pos hz]
      intro p hp
      rcases List.mem_cons.mp hp with hph | hpt
      · rw [hph]
        have : ¬ ask < acc.1 := fun hlt => hca ⟨hz, hlt⟩
        dsimp only
        linarith [not_lt.mp this]
      · exact ha1 p hpt
    · rw [if_neg hz]; exact ha1
  · rcases ha3 with ⟨he, hx⟩ | ⟨hlt, ex, hex, hmem⟩
    · exact Or.inl ⟨he, hx⟩
    · refine Or.inr ⟨hlt, ex, hex, ?_⟩
      rw [htac]
      by_cases hz : ask ≠ 0
      · rw [if_pos hz]; exact List.mem_cons_of_mem _ hmem
      · rw [if_neg hz]; exact hmem

lemma bidPart_updated {s : String} {x : String × List (String × (ℚ × ℚ))} {l : Topo}
    {bid ask : ℚ} {acc : ℚ × Option String × ℚ × Option String}
    (hlk : lookupSym s x.2 = some (bid, ask)) (hcb : bid ≠ 0 ∧ acc.2.2.1 < bid)
    {v : ℚ} {e : Option String}
    (hb1 : ∀ p ∈ truthyBids l s, p.2 ≤ v) (hb2 : bid ≤ v)
    (hb3 : (v = bid ∧ e = some x.1) ∨
      (bid < v ∧ ∃ ex, e = some ex ∧ (ex, v) ∈ truthyBids l s)) :
    (∀ p ∈ truthyBids (x :: l) s, p.2 ≤ v) ∧ acc.2.2.1 ≤ v ∧
      ((v = acc.2.2.1 ∧ e = acc.2.2.2) ∨
        (acc.2.2.1 < v ∧ ∃ ex, e = some ex ∧ (ex, v) ∈ truthyBids (x :: l) s)) := by
  have htbc : truthyBids (x :: l) s = (x.1, bid) :: truthyBids l s := by
    rw [truthyBids_cons]; simp only [hlk, if_pos hcb.1]
  refine ⟨?_, by linarith [hcb.2], Or.inr ?_⟩
  · rw [htbc]
    intro p hp
    rcases List.mem_cons.mp hp with hph | hpt
    · rw [hph]; exact hb2
    · exact hb1 p hpt
  · rcases hb3 with ⟨he, hx⟩ | ⟨hlt, ex, hex, hmem⟩
    · exact ⟨by rw [he]; exact hcb.2, x.1, hx, by rw [htbc, he]; exact List.mem_cons_self _ _⟩
    · exact ⟨by linarith [hcb.2], ex, hex, by rw [htbc]; exact List.mem_cons_of_mem _ hmem⟩

lemma bidPart_kept {s : String} {x : String × List (String × (ℚ × ℚ))} {l : Topo}
    {bid ask : ℚ} {acc : ℚ × Option String × ℚ × Option String}
    (hlk : lookupSym s x.2 = some (bid, ask)) (hcb : ¬ (bid ≠ 0 ∧ acc.2.2.1 < bid))
    {v : ℚ} {e : Option String}
    (hb1 : ∀ p ∈ truthyBids l s, p.2 ≤ v) (hb2 : acc.2.2.1 ≤ v)
    (hb3 : (v = acc.2.2.1 ∧ e = acc.2.2.2) ∨
      (acc.2.2.1 < v ∧ ∃ ex, e = some ex ∧ (ex, v) ∈ truthyBids l s)) :
    (∀ p ∈ truthyBids (x :: l) s, p.2 ≤ v) ∧ acc.2.2.1 ≤ v ∧
      ((v = acc.2.2.1 ∧ e = acc.2.2.2) ∨
        (acc.2.2.1 < v ∧ ∃ ex, e = some ex ∧ (ex, v) ∈ truthyBids (x :: l) s)) := by
  have htbc : truthyBids (x :: l) s =
      (if bid ≠ 0 then (x.1, bid) :: truthyBids l s else truthyBids l s) := by
    rw [truthyBids_cons]; simp only [hlk]
  refine ⟨?_, hb2, ?_⟩
  · rw [htbc]
    by_cases hz : bid ≠ 0
    · rw [if_pos hz]
      intro p hp
      rcases List.mem_cons.mp hp with hph | hpt
      · rw [hph]
        have : ¬ acc.2.2.1 < bid := fun hlt => hcb ⟨hz, hlt⟩
        dsimp only
        linarith [not_lt.mp this]
      · exact hb1 p hpt
    · rw [if_neg hz]; exact hb1
  · rcases hb3 with ⟨he, hx⟩ | ⟨hlt, ex, hex, hmem⟩
    · exact Or.inl ⟨he, hx⟩
    · refine Or.inr ⟨hlt, ex, hex, ?_⟩
      rw [htbc]
      by_cases hz : bid ≠ 0
      · rw [if_pos hz]; exact List.mem_cons_of_mem _ hmem
      · rw [if_neg hz]; exact hmem

lemma spreadScan_inv (s : String) :
    ∀ (l : Topo) (acc : ℚ × Option String × ℚ × Option String),
      ScanInv s l acc (l.foldl (spreadStep s) acc) := by
  intro l
  induction l with
  | nil =>
    intro acc
    exact ⟨by simp [truthyAsks], le_refl _, Or.inl ⟨rfl, rfl⟩,
           by simp [truthyBids], le_refl _, Or.inl ⟨rfl, rfl⟩⟩
  | cons x l ih =>
    intro acc
    rw [List.foldl_cons]
    rcases hlk : lookupSym s x.2 with _ | ⟨bid, ask⟩
    · have hstep : spreadStep s acc x = acc := by simp [spreadStep, hlk]
      rw [hstep]
      obtain ⟨ha1, ha2, ha3, hb1, hb2, hb3⟩ := ih acc
      have hta : truthyAsks (x :: l) s = truthyAsks l s := by
        rw [truthyAsks_cons]; simp only [hlk]
      have htb : truthyBids (x :: l) s = truthyBids l s := by
        rw [truthyBids_cons]; simp only [hlk]
      exact ⟨by rw [hta]; exact ha1, ha2, by rw [hta]; exact ha3,
             by rw [htb]; exact hb1, hb2, by rw [htb]; exact hb3⟩
    · by_cases hca : ask ≠ 0 ∧ ask < acc.1 <;> by_cases hcb : bid ≠ 0 ∧ acc.2.2.1 < bid
      · have hstep : spreadStep s acc x = (ask, some x.1, bid, some x.1) := by
          simp only [spreadStep, hlk]
          rw [if_pos hca, if_pos hcb]
        rw [hstep]
        obtain ⟨ha1, ha2, ha3, hb1, hb2, hb3⟩ := ih (ask, some x.1, bid, some x.1)
        obtain ⟨ga1, ga2, ga3⟩ := askPart_updated hlk hca ha1 ha2 ha3
        obtain ⟨gb1, gb2, gb3⟩ := bidPart_updated hlk hcb hb1 hb2 hb3
        exact ⟨ga1, ga2, ga3, gb1, gb2, gb3⟩
      · have hstep : spreadStep s acc x = (ask, some x.1, acc.2.2.1, acc.2.2.2) := by
          simp only [spreadStep, hlk]
          rw [if_pos hca, if_neg hcb]
        rw [hstep]
        obtain ⟨ha1, ha2, ha3, hb1, hb2, hb3⟩ := ih (ask, some x.1, acc.2.2.1, acc.2.2.2)
        obtain ⟨ga1, ga2, ga3⟩ := askPart_updated hlk hca ha1 ha2 ha3
        obtain ⟨gb1, gb2, gb3⟩ := bidPart_kept hlk hcb hb1 hb2 hb3
        exact ⟨ga1, ga2, ga3, gb1, gb2, gb3⟩
      · have hstep : spreadStep s acc x = (acc.1, acc.2.1, bid, some x.1) := by
          simp only [spreadStep, hlk]
          rw [if_neg hca, if_pos hcb]
        rw [hstep]
        obtain ⟨ha1, ha2, ha3, hb1, hb2, hb3⟩ := ih (acc.1, acc.2.1, bid, some x.1)
        obtain ⟨ga1, ga2, ga3⟩ := askPart_kept hlk hca ha1 ha2 ha3
        obtain ⟨gb1, gb2, gb3⟩ := bidPart_updated hlk hcb hb1 hb2 hb3
        exact ⟨ga1, ga2, ga3, gb1, gb2, gb3⟩
      · have hstep : spreadStep s acc x = acc := by
          simp only [spreadStep, hlk]
          rw [if_neg hca, if_neg hcb]
        rw [hstep]
        obtain ⟨ha1, ha2, ha3, hb1, hb2, hb3⟩ := ih acc
        obtain ⟨ga1, ga2, ga3⟩ := askPart_kept hlk hca ha1 ha2 ha3
        obtain ⟨gb1, gb2, gb3⟩ := bidPart_kept hlk hcb hb1 hb2 hb3
        exact ⟨ga1, ga2, ga3, gb1, gb2, gb3⟩

lemma spreadScan_spec (topo : Topo) (s : String) :
    (∀ p ∈ truthyAsks topo s, (spreadScan topo s).1 ≤ p.2) ∧
    (((spreadScan topo s).1 = 10 ^ 18 ∧ (spreadScan topo s).2.1 = none) ∨
      ((spreadScan topo s).1 < 10 ^ 18 ∧ ∃ ex, (spreadScan topo s).2.1 = some ex ∧
        (ex, (spreadScan topo s).1) ∈ truthyAsks topo s)) ∧
    (∀ p ∈ truthyBids topo s, p.2 ≤ (spreadScan topo s).2.2.1) ∧
    (((spreadScan topo s).2.2.1 = -1 ∧ (spreadScan topo s).2.2.2 = none) ∨
      (-1 < (spreadScan topo s).2.2.1 ∧ ∃ ex, (spreadScan topo s).2.2.2 = some ex ∧
        (ex, (spreadScan topo s).2.2.1) ∈ truthyBids topo s)) := by
  obtain ⟨ha1, ha2, ha3, hb1, hb2, hb3⟩ :=
    spreadScan_inv s topo (10 ^ 18, none, -1, none)
  exact ⟨ha1, ha3, hb1, hb3⟩

lemma askTracker_some_iff (topo : Topo) (s : String) :
    (∃ ex, (spreadScan topo s).2.1 = some ex) ↔
      ∃ p ∈ truthyAsks topo s, p.2 < 10 ^ 18 := by
  obtain ⟨ha1, ha3, hb1, hb3⟩ := spreadScan_spec topo s
  constructor
  · rintro ⟨ex, hex⟩
    rcases ha3 with ⟨-, hnone⟩ | ⟨hlt, ex2, hex2, hmem⟩
    · rw [hnone] at hex; cases hex
    · exact ⟨(ex2, (spreadScan topo s).1), hmem, hlt⟩
  · rintro ⟨p, hp, hplt⟩
    rcases ha3 with ⟨heq, -⟩ | ⟨-, ex, hex, -⟩
    · have := ha1 p hp
      rw [heq] at this
      linarith
    · exact ⟨ex, hex⟩

lemma bidTracker_some_iff (topo : Topo) (s : String) :
    (∃ ex, (spreadScan topo s).2.2.2 = some ex) ↔
      ∃ p ∈ truthyBids topo s, -1 < p.2 := by
  obtain ⟨ha1, ha3, hb1, hb3⟩ := spreadScan_spec topo s
  constructor
  · rintro ⟨ex, hex⟩
    rcases hb3 with ⟨-, hnone⟩ | ⟨hlt, ex2, hex2, hmem⟩
    · rw [hnone] at hex; cases hex
    · exact ⟨(ex2, (spreadScan topo s).2.2.1), hmem, hlt⟩
  · rintro ⟨p, hp, hplt⟩
    rcases hb3 with ⟨heq, -⟩ | ⟨-, ex, hex, -⟩
    · have := hb1 p hp
      rw [heq] at this
      linarith
    · exact ⟨ex, hex⟩

lemma mkSpreadCand_some_elim {topo : Topo} {s : String} {c : SpreadCand}
    (h : mkSpreadCand topo s = some c) :
    c.sym = s ∧ (spreadScan topo s).2.1 = some c.a_ex ∧
    (spreadScan topo s).2.2.2 = some c.b_ex ∧ c.a_ex ≠ c.b_ex ∧
    c.a_price = (spreadScan topo s).1 ∧ c.b_price = (spreadScan topo s).2.2.1 ∧
    c.spc = (c.b_price - c.a_price) / c.a_price * 100 := by
  unfold mkSpreadCand at h
  rcases hA : (spreadScan topo s).2.1 with _ | axe <;>
    rcases hB : (spreadScan topo s).2.2.2 with _ | bxe <;>
    simp only [hA, hB] at h
  · cases h
  · cases h
  · cases h
  · by_cases hne : axe ≠ bxe
    · rw [if_pos hne] at h
      obtain rfl := Option.some.inj h
      exact ⟨rfl, rfl, rfl, hne, rfl, rfl, rfl⟩
    · rw [if_neg hne] at h
      cases h

lemma mkSpreadCand_build {topo : Topo} {s : String} {axe bxe : String}
    (hA : (spreadScan topo s).2.1 = some axe)
    (hB : (spreadScan topo s).2.2.2 = some bxe) (hne : axe ≠ bxe) :
    mkSpreadCand topo s = some
      { sym := s, a_price := (spreadScan topo s).1, a_ex := axe,
        b_price := (spreadScan topo s).2.2.1, b_ex := bxe,
        spc := ((spreadScan topo s).2.2.1 - (spreadScan topo s).1) /
          (spreadScan topo s).1 * 100 } := by
  unfold mkSpreadCand
  simp only [hA, hB]
  rw [if_pos hne]

/-- C2 (amended). For every symbol, a spread entry is recorded exactly when
the symbol is checked, some exchange quotes a truthy ask strictly below the
`1e18` sentinel, some exchange quotes a truthy bid strictly above the `-1`
sentinel, and the scan's recorded ask exchange differs from its recorded
bid exchange; every recorded entry carries, as `best_ask`, the minimum
truthy ask (attained at its recorded exchange), as `best_bid` the maximum
truthy bid (attained at its recorded exchange), two distinct exchanges,
and `spread_pct = (best_bid - best_ask) / best_ask * 100`. -/
theorem computeSpreads_spec (topo : Topo) (syms : List String) (s : String) :
    ((∃ c ∈ computeSpreads topo syms, c.sym = s) ↔
      (s ∈ syms ∧ (∃ p ∈ truthyAsks topo s, p.2 < 10 ^ 18) ∧
        (∃ p ∈ truthyBids topo s, -1 < p.2) ∧
        (spreadScan topo s).2.1 ≠ (spreadScan topo s).2.2.2)) ∧
    (∀ c ∈ computeSpreads topo syms, c.sym = s →
      ((c.a_ex, c.a_price) ∈ truthyAsks topo s ∧
       (∀ p ∈ truthyAsks topo s, c.a_price ≤ p.2) ∧
       (c.b_ex, c.b_price) ∈ truthyBids topo s ∧
       (∀ p ∈ truthyBids topo s, p.2 ≤ c.b_price) ∧
       c.a_ex ≠ c.b_ex ∧
       c.spc = (c.b_price - c.a_price) / c.a_price * 100)) := by
  constructor
  · constructor
    · rintro ⟨c, hc, hsym⟩
      obtain ⟨t, ht, hmk⟩ := List.mem_filterMap.mp hc
      obtain ⟨hts, hA, hB, hne, -, -, -⟩ := mkSpreadCand_some_elim hmk
      rw [hsym] at hts
      subst hts
      refine ⟨ht, (askTracker_some_iff topo s).mp ⟨c.a_ex, hA⟩,
        (bidTracker_some_iff topo s).mp ⟨c.b_ex, hB⟩, ?_⟩
      rw [hA, hB]
      intro hcon
      exact hne (Option.some.inj hcon)
    · rintro ⟨hs, hask, hbid, hneq⟩
      obtain ⟨axe, hA⟩ := (askTracker_some_iff topo s).mpr hask
      obtain ⟨bxe, hB⟩ := (bidTracker_some_iff topo s).mpr hbid
      have hne : axe ≠ bxe := by
        intro hcon
        rw [hcon] at hA
        exact hneq (hA.trans hB.symm)
      exact ⟨_, List.mem_filterMap.mpr ⟨s, hs, mkSpreadCand_build hA hB hne⟩, rfl⟩
  · intro c hc hsym
    obtain ⟨t, ht, hmk⟩ := List.mem_filterMap.mp hc
    obtain ⟨hts, hA, hB, hne, hap, hbp, hspc⟩ := mkSpreadCand_some_elim hmk
    rw [hsym] at hts
    subst hts
    obtain ⟨ha1, ha3, hb1, hb3⟩ := spreadScan_spec topo s
    refine ⟨?_, ?_, ?_, ?_, hne, hspc⟩
    · rcases ha3 with ⟨-, hnone⟩ | ⟨-, ex, hex, hmem⟩
      · rw [hnone] at hA; cases hA
      · rw [hA] at hex
        obtain rfl := Option.some.inj hex
        rw [hap] at *
        exact hmem
    · intro p hp
      rw [hap]
      exact ha1 p hp
    · rcases hb3 with ⟨-, hnone⟩ | ⟨-, ex, hex, hmem⟩
      · rw [hnone] at hB; cases hB
      · rw [hB] at hex
        obtain rfl := Option.some.inj hex
        rw [hbp] at *
        exact hmem
    · intro p hp
      rw [hbp]
      exact hb1 p hp

lemma mem_insertDesc {c x : SpreadCand} : ∀ {l : List SpreadCand},
    c ∈ insertDesc x l ↔ c = x ∨ c ∈ l := by
  intro l
  induction l with
  | nil => simp [insertDesc]
  | cons y ys ih =>
    by_cases h : y.spc ≤ x.spc
    · simp [insertDesc, h]
    · simp [insertDesc, h, ih]
      tauto

lemma insertDesc_pairwise {x : SpreadCand} : ∀ {l : List SpreadCand},
    List.Pairwise (fun a b => b.spc ≤ a.spc) l →
    List.Pairwise (fun a b => b.spc ≤ a.spc) (insertDesc x l) := by
  intro l
  induction l with
  | nil => intro _; simp [insertDesc]
  | cons y ys ih =>
    intro h
    rw [List.pairwise_cons] at h
    by_cases hc : y.spc ≤ x.spc
    · rw [insertDesc, if_pos hc, List.pairwise_cons]
      refine ⟨?_, List.pairwise_cons.mpr h⟩
      intro b hb
      rcases List.mem_cons.mp hb with rfl | hb2
      · exact hc
      · exact le_trans (h.1 b hb2) hc
    · rw [insertDesc, if_neg hc, List.pairwise_cons]
      refine ⟨?_, ih h.2⟩
      intro b hb
      rcases mem_insertDesc.mp hb with rfl | hb2
      · linarith [lt_of_not_le hc]
      · exact h.1 b hb2

lemma sortSpreadsDesc_pairwise : ∀ (l : List SpreadCand),
    List.Pairwise (fun a b => b.spc ≤ a.spc) (sortSpreadsDesc l) := by
  intro l
  induction l with
  | nil => simp [sortSpreadsDesc]
  | cons x xs ih => exact insertDesc_pairwise ih

lemma alertsGo_length (cfg : Config) (depthOf : DepthEnv) :
    ∀ (l : List SpreadCand) (acc res : List Alert),
      alertsGo cfg depthOf l acc = .ok res → res.length ≤ acc.length + l.length := by
  intro l
  induction l with
  | nil =>
    intro acc res h
    obtain rfl := Except.ok.inj h
    simp
  | cons c rest ih =>
    intro acc res h
    rw [alertsGo] at h
    split at h
    · have := ih acc res h
      simp only [List.length_cons]
      omega
    · split at h
      · cases h
      · split at h
        · cases h
        · split at h
          · have := ih acc res h
            simp only [List.length_cons]
            omega
          · have := ih acc res h
            simp only [List.length_cons]
            omega
          · split at h
            · dsimp only at h
              split at h
              · have := ih (acc ++ [_]) res h
                simp only [List.length_append, List.length_cons, List.length_nil] at this ⊢
                omega
              · have := ih acc res h
                simp only [List.length_cons]
                omega
            · cases h

/-- C8 (amended). In each scan at most `REPORT_LIMIT` spread candidates
are considered, taken from the recorded spreads sorted by spread
percentage in non-increasing order (largest first; equal percentages keep
their original order), so an alert reports at most `REPORT_LIMIT`
symbols. -/
theorem report_limit_spec (cfg : Config) (depthOf : DepthEnv) (spreads : List SpreadCand) :
    (considered cfg spreads).length ≤ cfg.REPORT_LIMIT ∧
    List.Pairwise (fun a b => b.spc ≤ a.spc) (considered cfg spreads) ∧
    (∀ alerts, scanAlerts cfg depthOf spreads = .ok alerts →
      alerts.length ≤ cfg.REPORT_LIMIT) := by
  refine ⟨List.length_take_le _ _, ?_, ?_⟩
  · exact (sortSpreadsDesc_pairwise spreads).sublist (List.take_sublist _ _)
  · intro alerts h
    have h1 := alertsGo_length cfg depthOf (considered cfg spreads) [] alerts h
    have h2 : (considered cfg spreads).length ≤ cfg.REPORT_LIMIT :=
      List.length_take_le _ _
    simp only [List.length_nil, Nat.zero_add] at h1
    omega

lemma send_telegram_kinds (cfg : Config) (text : String) (pr : Bool) :
    ∀ e ∈ send_telegram cfg text pr, isSleep e = false ∧ isFileWrite e = false := by
  intro e he
  unfold send_telegram at he
  split at he
  · obtain rfl := List.mem_singleton.mp he
    exact ⟨rfl, rfl⟩
  · rcases List.mem_cons.mp he with rfl | he2
    · exact ⟨rfl, rfl⟩
    · split at he2
      · obtain rfl := List.mem_singleton.mp he2
        exact ⟨rfl, rfl⟩
      · cases he2

lemma buildTopo_kinds (cfg : Config) (env : ScanEnv) :
    ∀ e ∈ (buildTopo cfg env).2, isSleep e = false ∧ isFileWrite e = false := by
  have go : ∀ (l : List (String × Except String (List (String × (ℚ × ℚ)))))
      (acc : Topo × List Effect),
      (∀ e ∈ acc.2, isSleep e = false ∧ isFileWrite e = false) →
      ∀ e ∈ (l.foldl (fun acc exr =>
        match exr.2 with
        | .error er =>
          (acc.1, acc.2 ++ send_telegram cfg ("Adapter error " ++ exr.1 ++ ": " ++ er) env.tgFails)
        | .ok m => (if m = [] then acc.1 else acc.1 ++ [(exr.1, m)], acc.2)) acc).2,
        isSleep e = false ∧ isFileWrite e = false := by
    intro l
    induction l with
    | nil => intro acc hacc; exact hacc
    | cons x xs ih =>
      intro acc hacc
      rw [List.foldl_cons]
      rcases hx : x.2 with er | m
      · refine ih _ ?_
        simp only [hx]
        intro e he
        rcases List.mem_append.mp he with h1 | h2
        · exact hacc e h1
        · exact send_telegram_kinds cfg _ env.tgFails e h2
      · refine ih _ ?_
        simp only [hx]
        exact hacc
  intro e he
  exact go env.topoResults ([], []) (by intro e h; cases h) e he

lemma sendAlerts_kinds (cfg : Config) (env : ScanEnv) (alerts : List Alert)
    (csv0 : Option (List Row)) :
    ∀ e ∈ (sendAlerts cfg env alerts csv0).1,
      isSleep e = false ∧ (isFileWrite e = true →
        ∃ a ∈ alerts, e = .csvAppend (csvRowOf env.timestamp a)) := by
  intro e he
  unfold sendAlerts at he
  dsimp only at he
  rcases List.mem_append.mp he with h1 | h2
  · obtain ⟨row, hrow, rfl⟩ := List.mem_map.mp h1
    obtain ⟨a, ha, rfl⟩ := List.mem_map.mp hrow
    exact ⟨rfl, fun _ => ⟨a, ha, rfl⟩⟩
  · have := send_telegram_kinds cfg _ env.tgFails e h2
    exact ⟨this.1, fun hw => absurd hw (by rw [this.2]; exact Bool.false_ne_true)⟩

lemma iterationBody_ok_kinds (cfg : Config) (env : ScanEnv) (st : LoopState)
    (r : List Effect × LoopState) (h : iterationBody cfg env st = .ok r) :
    ∀ e ∈ r.1, isSleep e = false ∧ (isFileWrite e = true →
      ∃ alerts a, scanAlerts cfg env.depthOf
          (computeSpreads (buildTopo cfg env).1 (lowliqFilter cfg env.volFetch cfg.symbols)) =
            .ok alerts ∧
        a ∈ alerts ∧ e = .csvAppend (csvRowOf env.timestamp a)) := by
  unfold iterationBody at h
  dsimp only at h
  rcases hscan : scanAlerts cfg env.depthOf
      (computeSpreads (buildTopo cfg env).1 (lowliqFilter cfg env.volFetch cfg.symbols))
    with er | alerts <;> rw [hscan] at h
  · cases h
  · obtain rfl := Except.ok.inj h
    intro e he
    dsimp only at he
    rcases List.mem_append.mp he with h12 | h3
    · rcases List.mem_append.mp h12 with h1 | h2
      · have := buildTopo_kinds cfg env e h1
        exact ⟨this.1, fun hw => absurd hw (by rw [this.2]; exact Bool.false_ne_true)⟩
      · by_cases hemp : alerts = []
        · rw [if_pos hemp] at h2
          cases h2
        · rw [if_neg hemp] at h2
          have := sendAlerts_kinds cfg env alerts st.csvFile e h2
          refine ⟨this.1, fun hw => ?_⟩
          obtain ⟨a, ha, rfl⟩ := this.2 hw
          exact ⟨alerts, a, rfl, ha, rfl⟩
    · by_cases hhb : cfg.HEARTBEAT_INTERVAL < env.now - st.last_hb
      · rw [if_pos hhb] at h3
        have := send_telegram_kinds cfg _ env.tgFails e h3
        exact ⟨this.1, fun hw => absurd hw (by rw [this.2]; exact Bool.false_ne_true)⟩
      · rw [if_neg hhb] at h3
        cases h3

lemma iterate_countSleep (cfg : Config) (env : ScanEnv) (st : LoopState) :
    List.countP isSleep (iterate cfg env st).1 = 1 := by
  unfold iterate
  rcases hbod : iterationBody cfg env st with e | r
  · rw [List.countP_append]
    have h0 : List.countP isSleep (send_telegram cfg ("Bot runtime error: " ++ e) env.tgFails) = 0 := by
      rw [List.countP_eq_zero]
      intro a ha
      rw [(send_telegram_kinds cfg _ env.tgFails a ha).1]
      exact Bool.false_ne_true
    rw [h0]
    rfl
  · rw [List.countP_append]
    have h0 : List.countP isSleep r.1 = 0 := by
      rw [List.countP_eq_zero]
      intro a ha
      rw [(iterationBody_ok_kinds cfg env st r hbod a ha).1]
      exact Bool.false_ne_true
    rw [h0]
    rfl

lemma getLast?_append_singleton {α : Type} (l : List α) (a : α) :
    (l ++ [a]).getLast? = some a := by
  induction l with
  | nil => rfl
  | cons x xs ih =>
    rw [List.cons_append]
    rcases hxs : xs ++ [a] with _ | ⟨y, ys⟩
    · exact absurd hxs (by simp)
    · rw [List.getLast?_cons_cons, ← hxs]
      exact ih

/-- C6. The main loop never terminates and retries indefinitely: the
effect trace of `n` iterations always exists and contains exactly `n`
sleeps; every iteration, whether its body succeeded or raised, ends with
`time.sleep(SCAN_INTERVAL)` for the same fixed interval; and a body
exception is caught by the blanket handler, whose whole output is the
Telegram notification of the error followed by the sleep. -/
theorem run_loop_spec (cfg : Config) (envs : ℕ → ScanEnv) (st0 : LoopState) (n : ℕ) :
    List.countP isSleep (trace cfg envs n st0) = n ∧
    (∀ env st, ((iterate cfg env st).1).getLast? = some (.sleepFor cfg.SCAN_INTERVAL)) ∧
    (∀ env st e, iterationBody cfg env st = .error e →
      (iterate cfg env st).1 =
        send_telegram cfg ("Bot runtime error: " ++ e) env.tgFails ++
          [.sleepFor cfg.SCAN_INTERVAL]) := by
  refine ⟨?_, ?_, ?_⟩
  · induction n generalizing st0 with
    | zero => rfl
    | succ m ih =>
      rw [trace, List.countP_append, iterate_countSleep, ih]
      omega
  · intro env st
    unfold iterate
    rcases iterationBody cfg env st with e | r
    · exact getLast?_append_singleton _ _
    · exact getLast?_append_singleton _ _
  · intro env st e h
    unfold iterate
    rw [h]

/-- C5 (amended). The only state the program writes that survives the
process is the CSV log file: each iteration only ever appends rows to it
(creating it with the header first when absent), every file-writing
effect is the `log_to_csv` append of one alert row, and all other loop
values (`topo`, spreads, `last_hb`, ...) are in-memory only and are lost
on restart. -/
theorem persistence_only_csv (cfg : Config) (env : ScanEnv) (st : LoopState) :
    (∀ rows, st.csvFile = some rows →
      ∃ extra, (iterate cfg env st).2.csvFile = some (rows ++ extra)) ∧
    (st.csvFile = none → (iterate cfg env st).2.csvFile = none ∨
      ∃ rest, (iterate cfg env st).2.csvFile = some (csvHeader :: rest)) ∧
    (∀ e ∈ (iterate cfg env st).1, isFileWrite e = true →
      ∃ alerts a, scanAlerts cfg env.depthOf
          (computeSpreads (buildTopo cfg env).1 (lowliqFilter cfg env.volFetch cfg.symbols)) =
            .ok alerts ∧
        a ∈ alerts ∧ e = .csvAppend (csvRowOf env.timestamp a)) := by
  have csvfold : ∀ (rs : List Row) (rows0 : List Row),
      rs.foldl (fun c r => some (log_to_csv c r)) (some rows0) = some (rows0 ++ rs) := by
    intro rs
    induction rs with
    | nil => intro rows0; simp
    | cons r rest ih =>
      intro rows0
      rw [List.foldl_cons]
      have h1 : log_to_csv (some rows0) r = rows0 ++ [r] := rfl
      rw [h1, ih]
      simp
  have csv_shape : ∀ r, iterationBody cfg env st = .ok r →
      r.2.csvFile = st.csvFile ∨
      ∃ rows, r.2.csvFile =
        some (log_to_csv st.csvFile rows.headI ++ rows.tail) ∧ rows ≠ [] := by
    intro r h
    unfold iterationBody at h
    dsimp only at h
    rcases hscan : scanAlerts cfg env.depthOf
        (computeSpreads (buildTopo cfg env).1 (lowliqFilter cfg env.volFetch cfg.symbols))
      with er | alerts <;> rw [hscan] at h
    · cases h
    · obtain rfl := Except.ok.inj h
      dsimp only
      by_cases hemp : alerts = []
      · rw [if_pos hemp]
        exact Or.inl rfl
      · rw [if_neg hemp]
        right
        refine ⟨alerts.map (csvRowOf env.timestamp), ?_, by simpa using hemp⟩
        unfold sendAlerts
        dsimp only
        rcases halerts : alerts.map (csvRowOf env.timestamp) with _ | ⟨row0, rows'⟩
        · exact absurd (List.map_eq_nil_iff.mp halerts) hemp
        · rw [List.foldl_cons]
          have : log_to_csv st.csvFile row0 = log_to_csv st.csvFile row0 := rfl
          rw [csvfold rows' (log_to_csv st.csvFile row0)]
          simp
  refine ⟨?_, ?_, ?_⟩
  · intro rows hrows
    unfold iterate
    rcases hbod : iterationBody cfg env st with e | r
    · exact ⟨[], by rw [hrows]; simp⟩
    · rcases csv_shape r hbod with heq | ⟨rs, heq, hne⟩
      · exact ⟨[], by rw [heq, hrows]; simp⟩
      · refine ⟨rs.headI :: rs.tail, ?_⟩
        rw [heq, hrows]
        simp [log_to_csv]
  · intro hnone
    unfold iterate
    rcases hbod : iterationBody cfg env st with e | r
    · exact Or.inl hnone
    · rcases csv_shape r hbod with heq | ⟨rs, heq, hne⟩
      · rw [heq] at *
        exact Or.inl hnone
      · right
        refine ⟨rs.headI :: rs.tail, ?_⟩
        rw [heq, hnone]
        simp [log_to_csv]
  · intro e he hw
    unfold iterate at he
    rcases hbod : iterationBody cfg env st with er | r
    · rw [hbod] at he
      rcases List.mem_append.mp he with h1 | h2
      · have := send_telegram_kinds cfg _ env.tgFails e h1
        exact absurd hw (by rw [this.2]; exact Bool.false_ne_true)
      · obtain rfl := List.mem_singleton.mp h2
        cases hw
    · rw [hbod] at he
      rcases List.mem_append.mp he with h1 | h2
      · exact (iterationBody_ok_kinds cfg env st r hbod e h1).2 hw
      · obtain rfl := List.mem_singleton.mp h2
        cases hw

/-- The alert gates of claim C1 for one considered candidate, stated from
the claim: spread percentage at least `MIN_SPREAD_PCT`, depth obtained for
both the buy and the sell exchange, and a pair evaluation with positive
profit meeting the notional and profit minimums. -/
def passesAllGates (cfg : Config) (depthOf : DepthEnv) (c : SpreadCand) : Bool :=
  decide (cfg.MIN_SPREAD_PCT ≤ c.spc) &&
    (match depthOf c.a_ex c.sym, depthOf c.b_ex c.sym with
     | .ok (_, some buy_asks), .ok (some sell_bids, _) =>
       let best := evaluate_pair cfg buy_asks sell_bids (1 / 500) (1 / 500) (capitalLimit cfg)
       decide (0 < best.profit) && decide (cfg.MIN_NOTIONAL_USDT ≤ best.notional) &&
         decide (cfg.MIN_PROFIT_USDT ≤ best.profit)
     | _, _ => false)

/-- Modelled from the words of claim C8, for refutation: whether a list
of percentages is strictly decreasing (each later entry strictly smaller
than its predecessor). -/
def strictDescBool : List ℚ → Bool
  | [] => true
  | [_] => true
  | a :: b :: rest => decide (b < a) && strictDescBool (b :: rest)

/-- Modelled from the words of claim C2, for refutation: a spread entry
should be recorded exactly when the minimum truthy ask and the maximum
truthy bid both exist and come from two different exchanges. -/
def specSpreadRecorded (topo : Topo) (s : String) : Prop :=
  ∃ pa ∈ truthyAsks topo s, ∃ pb ∈ truthyBids topo s,
    (∀ q ∈ truthyAsks topo s, pa.2 ≤ q.2) ∧
    (∀ q ∈ truthyBids topo s, q.2 ≤ pb.2) ∧ pa.1 ≠ pb.1

/-- A two-exchange snapshot on which one symbol passes every alert gate:
kucoin asks at 1, okx bids at 2. -/
def topoPass : Topo :=
  [("kucoin", [("SOLUSDT", (9 / 10, 1))]), ("okx", [("SOLUSDT", (2, 11 / 5))])]

/-- Depth environment matching `topoPass`: ample depth on both sides,
`(None, None)` for any other exchange. -/
def depthPass : DepthEnv := fun ex _ =>
  if ex = "kucoin" then .ok (some [(9 / 10, 50)], some [(1, 100)])
  else if ex = "okx" then .ok (some [(2, 100)], some [(11 / 5, 10)])
  else .ok (none, none)

/-- Snapshot where SOLUSDT passes every gate and AVAXUSDT also shows a
spread. -/
def topoCrash : Topo :=
  [("kucoin", [("SOLUSDT", (9 / 10, 1)), ("AVAXUSDT", (9 / 10, 1))]),
   ("okx", [("SOLUSDT", (2, 11 / 5)), ("AVAXUSDT", (3 / 2, 8 / 5))])]

/-- Depth environment where the depth fetch for AVAXUSDT fails, returning
the Python value `(None, None)`. -/
def depthCrash : DepthEnv := fun ex s =>
  if s = "AVAXUSDT" then .ok (none, none) else depthPass ex s

/-- The 24h-volume fetch that always fails. -/
def volNone : String → Option ℚ := fun _ => none

/-- Scan environment realizing `topoPass`. -/
def envPass : ScanEnv :=
  { topoResults := [("kucoin", .ok [("SOLUSDT", (9 / 10, 1))]),
                    ("okx", .ok [("SOLUSDT", (2, 11 / 5))])],
    volFetch := volNone, depthOf := depthPass,
    now := 0, timestamp := "t0", tgFails := false }

/-- Scan environment realizing `topoCrash` with the failing AVAXUSDT
depth fetch. -/
def envCrash : ScanEnv :=
  { topoResults := [("kucoin", .ok [("SOLUSDT", (9 / 10, 1)), ("AVAXUSDT", (9 / 10, 1))]),
                    ("okx", .ok [("SOLUSDT", (2, 11 / 5)), ("AVAXUSDT", (3 / 2, 8 / 5))])],
    volFetch := volNone, depthOf := depthCrash,
    now := 0, timestamp := "t0", tgFails := false }

/-- Snapshot with two symbols whose recorded spread percentages tie. -/
def topoTie : Topo :=
  [("kucoin", [("AAAUSDT", (9 / 10, 1)), ("BBBUSDT", (9 / 10, 1))]),
   ("okx", [("AAAUSDT", (3 / 2, 8 / 5)), ("BBBUSDT", (3 / 2, 8 / 5))])]

/-- A configuration with Telegram credentials present. -/
def cfgWithCreds : Config :=
  { defaultConfig with TELEGRAM_TOKEN := some "T", CHAT_ID := some "C" }

/-- A depth payload with eight levels per side. -/
def binanceResp8 : DepthResp :=
  { bids := [(1, 1), (2, 1), (3, 1), (4, 1), (5, 1), (6, 1), (7, 1), (8, 1)],
    asks := [(1, 1), (2, 1), (3, 1), (4, 1), (5, 1), (6, 1), (7, 1), (8, 1)] }

/-- The spreads recorded on `topoPass` for the default symbols. -/
def spreadsPass : List SpreadCand := computeSpreads topoPass defaultConfig.symbols

/-- The alerts computed on `topoPass` (nonempty: SOLUSDT passes). -/
def alertsPass : List Alert :=
  match scanAlerts defaultConfig depthPass spreadsPass with
  | .ok l => l
  | .error _ => []

section ConcreteEvaluation

attribute [local semireducible] Rat.add Rat.mul Rat.inv Rat.sub Rat.ofScientific

/-- C1 (code bug). On `topoCrash` with the AVAXUSDT depth fetch returning
`(None, None)`, the SOLUSDT candidate passes every alert gate, yet the
scan raises (the truthy `(None, None)` tuple defeats the
`if not buy_depth or not sell_depth` skip and `evaluate_pair` subscripts
`None`), so the iteration aborts and no alert at all is sent — against
both the claim and the code's own comment `# if either depth missing
skip`. -/
theorem depth_crash_suppresses_alert :
    (∃ c ∈ computeSpreads topoCrash
        (lowliqFilter defaultConfig volNone defaultConfig.symbols),
      passesAllGates defaultConfig depthCrash c = true) ∧
    scanAlerts defaultConfig depthCrash
        (computeSpreads topoCrash (lowliqFilter defaultConfig volNone defaultConfig.symbols)) =
      .error "NoneType object is not subscriptable" := by
  constructor
  · decide
  · decide

/-- C2 (counterexample). On a snapshot where exchange `e1` quotes the
symbol with ask exactly `1e18` (truthy) and bid `0`, and exchange `e2`
quotes bid `3` and ask `0`, the minimum truthy ask and the maximum truthy
bid both exist and come from two different exchanges — the claim says a
spread entry is recorded — yet the code records nothing, because its
best-ask tracker only accepts asks strictly below the `1e18` sentinel. -/
theorem spread_sentinel_counterexample :
    specSpreadRecorded [("e1", [("S", (0, 10 ^ 18))]), ("e2", [("S", (3, 0))])] "S" ∧
    computeSpreads [("e1", [("S", (0, 10 ^ 18))]), ("e2", [("S", (3, 0))])] ["S"] = [] := by
  constructor
  · refine ⟨("e1", 10 ^ 18), by decide, ("e2", 3), by decide, by decide, by decide, by decide⟩
  · decide

/-- Witness for `computeSpreads_spec` at a concrete snapshot. -/
theorem computeSpreads_spec_witness :
    (∃ c ∈ computeSpreads topoPass ["SOLUSDT"], c.sym = "SOLUSDT") ∧
    (∀ c ∈ computeSpreads topoPass ["SOLUSDT"], c.sym = "SOLUSDT" → c.a_ex ≠ c.b_ex) :=
  ⟨(computeSpreads_spec topoPass ["SOLUSDT"] "SOLUSDT").1.mpr
      ⟨by decide, by decide, by decide, by decide⟩,
   fun c hc hs =>
     ((computeSpreads_spec topoPass ["SOLUSDT"] "SOLUSDT").2 c hc hs).2.2.2.2.1⟩

/-- Witness for `evaluate_pair_sound` on a concrete pair of books. -/
theorem evaluate_pair_sound_witness :
    (∀ l ∈ [((1 : ℚ), (100 : ℚ))], 0 < l.1 ∧ 0 < l.2) ∧
    (0 ≤ (1 : ℚ) / 500 ∧ (1 : ℚ) / 500 < 1) ∧
    GoodBest (1 / 500) (1 / 500) 100
      (evaluate_pair defaultConfig [(1, 100)] [(2, 100)] (1 / 500) (1 / 500) 100) :=
  ⟨by decide, by decide,
   evaluate_pair_sound defaultConfig [(1, 100)] [(2, 100)] (1 / 500) (1 / 500) 100
     (by decide) (by decide) (by decide) (by decide)⟩

/-- Witness for `estimators_respect_budget` on concrete books and
budgets. -/
theorem estimators_respect_budget_witness :
    ((0 : ℚ) ≤ 50 ∧ (0 : ℚ) ≤ 30) ∧
    (estimate_buy_from_asks [(1, 100)] 50).spent ≤ 50 ∧
    (estimate_sell_on_bids [(2, 100)] 30).sold ≤ 30 :=
  ⟨⟨by decide, by decide⟩,
   (estimators_respect_budget [(1, 100)] [(2, 100)] 50 30
     (by decide) (by decide) (by decide) (by decide)).1,
   (estimators_respect_budget [(1, 100)] [(2, 100)] 50 30
     (by decide) (by decide) (by decide) (by decide)).2.2.2.2.2.1⟩

/-- C5 (counterexample). A concrete passing iteration, started with no CSV
file on disk, ends with the CSV log file existing (header plus one alert
row) and emits a file-write effect: state that survives the process is
written, contradicting the claim that nothing persists. -/
theorem persistence_counterexample :
    (iterate defaultConfig envPass { csvFile := none, last_hb := 0 }).2.csvFile ≠ none ∧
    ((iterate defaultConfig envPass { csvFile := none, last_hb := 0 }).1.any isFileWrite)
      = true := by
  constructor
  · decide
  · decide

/-- Witness for `persistence_only_csv` at a concrete iteration. -/
theorem persistence_only_csv_witness :
    ({ csvFile := some [csvHeader], last_hb := 0 } : LoopState).csvFile = some [csvHeader] ∧
    (∃ extra, (iterate defaultConfig envPass
      { csvFile := some [csvHeader], last_hb := 0 }).2.csvFile =
        some ([csvHeader] ++ extra)) :=
  ⟨rfl,
   (persistence_only_csv defaultConfig envPass
     { csvFile := some [csvHeader], last_hb := 0 }).1 [csvHeader] rfl⟩

/-- Witness for `run_loop_spec`: a concrete iteration whose body raises,
with the handler output and the trailing sleep. -/
theorem run_loop_spec_witness :
    iterationBody defaultConfig envCrash { csvFile := none, last_hb := 0 } =
      .error "NoneType object is not subscriptable" ∧
    (iterate defaultConfig envCrash { csvFile := none, last_hb := 0 }).1 =
      send_telegram defaultConfig
          ("Bot runtime error: " ++ "NoneType object is not subscriptable") envCrash.tgFails ++
        [.sleepFor defaultConfig.SCAN_INTERVAL] :=
  ⟨by decide,
   (run_loop_spec defaultConfig (fun _ => envCrash) { csvFile := none, last_hb := 0 } 0).2.2
     envCrash { csvFile := none, last_hb := 0 } _ (by decide)⟩

/-- Witness for `depth_fetchers_bounded` on an eight-level payload. -/
theorem depth_fetchers_bounded_witness :
    fetch_binance_depth defaultConfig (some binanceResp8) =
      (some (binanceResp8.bids.take 6), some (binanceResp8.asks.take 6)) ∧
    (binanceResp8.bids.take 6).length ≤ defaultConfig.DEPTH_LEVELS ∧
    (binanceResp8.asks.take 6).length ≤ defaultConfig.DEPTH_LEVELS :=
  ⟨by decide,
   (depth_fetchers_bounded defaultConfig (some binanceResp8) none none none none).1
     (binanceResp8.bids.take 6) (binanceResp8.asks.take 6) (by decide)⟩

/-- C8 (counterexample). Two recorded spreads tie at the same percentage:
both are considered (within `REPORT_LIMIT`), and the considered sequence
of spread percentages is `[50, 50]`, which is not strictly decreasing, so
the claim's "strictly decreasing order" fails; the order is only
non-increasing. -/
theorem report_strict_order_counterexample :
    ((considered defaultConfig (computeSpreads topoTie ["AAAUSDT", "BBBUSDT"])).map
        (fun c => c.spc)) = [50, 50] ∧
    strictDescBool
        ((considered defaultConfig (computeSpreads topoTie ["AAAUSDT", "BBBUSDT"])).map
          (fun c => c.spc)) = false := by
  constructor
  · decide
  · decide

/-- Witness for `report_limit_spec` at a concrete scan that produces one
alert. -/
theorem report_limit_spec_witness :
    scanAlerts defaultConfig depthPass spreadsPass = .ok alertsPass ∧
    alertsPass.length ≤ defaultConfig.REPORT_LIMIT :=
  ⟨by decide,
   (report_limit_spec defaultConfig depthPass spreadsPass).2.2 alertsPass (by decide)⟩

/-- Witness for `send_telegram_spec` with credentials present. -/
theorem send_telegram_spec_witness :
    truthyStr cfgWithCreds.TELEGRAM_TOKEN = true ∧ truthyStr cfgWithCreds.CHAT_ID = true ∧
    (send_telegram cfgWithCreds "hello" false).filter isPost =
      [.httpPost (telegramUrl cfgWithCreds)] :=
  ⟨by decide, by decide,
   ((send_telegram_spec cfgWithCreds "hello" false).2 (by decide) (by decide)).1⟩

/-- Witness for `lowliq_filter_spec`: a symbol whose volume fetch fails is
kept. -/
theorem lowliq_filter_spec_witness :
    "SOLUSDT" ∈ (["SOLUSDT"] : List String) ∧ volNone "SOLUSDT" = none ∧
    "SOLUSDT" ∈ lowliqFilter defaultConfig volNone ["SOLUSDT"] :=
  ⟨by decide, rfl,
   (lowliq_filter_spec defaultConfig volNone ["SOLUSDT"] "SOLUSDT").2
     (by decide) (Or.inl rfl)⟩

end ConcreteEvaluation

end ObiBot
